import Mathlib

/-!
# nitrokey-3-firmware, `utils/gen-fido-keys`

A shallow embedding of the three C sources

* `my_lfs_common.h` : the memory-mapped block device handed to littlefs
  (`mm_read`, `mm_prog`, `mm_erase`, `mm_noop`, `LFS_CONFIG`),
* `gen_init_fs.c`   : the image builder (`main`),
* `list_fs.c`       : the image inspector (`recurse`),

followed by the properties established about them.

Conventions of the embedding.

* A byte is a `Fin 256`, the mapped region `fsmmap` is a `List Byte`.
* `lfs_block_t`, `lfs_off_t` and `lfs_size_t` are `uint32_t`; they are carried
  as `Nat` and every operation that can leave the 32-bit range is reduced with
  `u32` explicitly.
* A `memcpy`/`memset` whose range leaves the mapped region is undefined in C;
  the embedding returns `none` there.
* C strings are `List Char` (the bytes before the terminating NUL).
* littlefs itself (`lfs.h`) is not part of these sources.  Its entry points
  are parameters of the embedding (`BuilderEngine`, `InspectorEngine`).
* The build constants `FILESYSTEM_SIZE` and `FILESYSTEM_BLK_SHIFT`, which the
  header only requires to be defined, are the fields of `Consts`.
* The `printf` tracing of the block-device callbacks goes to standard output
  and never touches the mapped region; it is left out of the block-device
  state.
-/

namespace GenFidoKeys

/-! ## `my_lfs_common.h` : the block device -/

/-- One byte of memory. -/
abbrev Byte := Fin 256

/-- `LFS_ERR_OK` of `lfs.h`. -/
def LFS_ERR_OK : Int := 0

/-- Reduction to `uint32_t`. -/
def u32 (x : Nat) : Nat := x % 2 ^ 32

/-- The build constants that `my_lfs_common.h` requires to be defined
(`FILESYSTEM_BASE` only fixes the address of the mapping and is not needed). -/
structure Consts where
  FILESYSTEM_SIZE : Nat
  FILESYSTEM_BLK_SHIFT : Nat
deriving DecidableEq, Repr

/-- `#define FS_BLKSIZE (1U << FILESYSTEM_BLK_SHIFT)`, an `unsigned int`
(the shift is defined in C for a shift below 32 only). -/
def FS_BLKSIZE (k : Consts) : Nat := u32 (1 <<< k.FILESYSTEM_BLK_SHIFT)

/-- The numeric fields of `struct lfs_config` that the header initialises
(the four callbacks are the functions `mm_read`, `mm_prog`, `mm_erase`,
`mm_noop` below; the buffer pointers are `NULL`). -/
structure lfs_config where
  read_size : Nat
  prog_size : Nat
  block_size : Nat
  block_count : Nat
  block_cycles : Int
  cache_size : Nat
  lookahead_size : Nat
  name_max : Nat
  file_max : Nat
  attr_max : Nat
  metadata_max : Nat
deriving DecidableEq, Repr

/-- `static struct lfs_config LFS_CONFIG = { ... }`. -/
def LFS_CONFIG (k : Consts) : lfs_config where
  read_size := 4
  prog_size := 4
  block_size := FS_BLKSIZE k
  block_count := u32 (k.FILESYSTEM_SIZE >>> k.FILESYSTEM_BLK_SHIFT)
  block_cycles := -1
  cache_size := 256
  lookahead_size := 8
  name_max := 0
  file_max := 0
  attr_max := 0
  metadata_max := 0

/-- `memcpy(dst, fsmmap + addr, sz)`: the `sz` bytes read from the mapping,
`none` when the range is not inside it. -/
def mem_load (fsmmap : List Byte) (addr sz : Nat) : Option (List Byte) :=
  if addr + sz ≤ fsmmap.length then some ((fsmmap.drop addr).take sz) else none

/-- `memcpy(fsmmap + addr, src, sz)`: the mapping after the copy, `none` when
the destination range is not inside the mapping or `src` holds fewer than `sz`
bytes. -/
def mem_store (fsmmap : List Byte) (addr : Nat) (src : List Byte) (sz : Nat) :
    Option (List Byte) :=
  if addr + sz ≤ fsmmap.length ∧ sz ≤ src.length then
    some (fsmmap.take addr ++ src.take sz ++ fsmmap.drop (addr + sz))
  else none

/-- `memset(fsmmap + addr, v, sz)`: the mapping after the fill, `none` when the
range is not inside the mapping. -/
def mem_fill (fsmmap : List Byte) (addr : Nat) (v : Byte) (sz : Nat) :
    Option (List Byte) :=
  if addr + sz ≤ fsmmap.length then
    some (fsmmap.take addr ++ List.replicate sz v ++ fsmmap.drop (addr + sz))
  else none

/-- The byte offset `(b << FILESYSTEM_BLK_SHIFT)` inside the mapping; the shift
is done on a `uint32_t`. -/
def blk_off (k : Consts) (b : Nat) : Nat := u32 (b <<< k.FILESYSTEM_BLK_SHIFT)

/-- `mm_read`: returns the status, the mapping afterwards and the filled
buffer. -/
def mm_read (k : Consts) (fsmmap : List Byte) (_c : lfs_config) (b o sz : Nat) :
    Option (Int × List Byte × List Byte) :=
  match mem_load fsmmap (blk_off k b + o) sz with
  | some buf => some (LFS_ERR_OK, fsmmap, buf)
  | none => none

/-- `mm_prog`: returns the status and the mapping afterwards. -/
def mm_prog (k : Consts) (fsmmap : List Byte) (_c : lfs_config) (b o : Nat)
    (buf : List Byte) (sz : Nat) : Option (Int × List Byte) :=
  match mem_store fsmmap (blk_off k b + o) buf sz with
  | some m => some (LFS_ERR_OK, m)
  | none => none

/-- `mm_erase`: returns the status and the mapping afterwards. -/
def mm_erase (k : Consts) (fsmmap : List Byte) (c : lfs_config) (b : Nat) :
    Option (Int × List Byte) :=
  match mem_fill fsmmap (blk_off k b) 0xff c.block_size with
  | some m => some (LFS_ERR_OK, m)
  | none => none

/-- `mm_noop` (the `sync` callback): returns the status and the mapping
afterwards. -/
def mm_noop (fsmmap : List Byte) (_c : lfs_config) : Int × List Byte :=
  (LFS_ERR_OK, fsmmap)

/-! ## `gen_init_fs.c` : the image builder -/

/-- `static char rndbuf[32]`. -/
def rndbuf : List Byte :=
  [0, 1, 2, 3, 4, 5, 6, 7,
   0, 1, 2, 3, 4, 5, 6, 7,
   0, 1, 2, 3, 4, 5, 6, 7,
   0, 1, 2, 3, 4, 5, 6, 7]

/-- `LFS_O_WRONLY | LFS_O_CREAT | LFS_O_TRUNC` with the values of `lfs.h`
(`2`, `0x0100`, `0x0400`). -/
def OPEN_FLAGS : Nat := 2 ||| 0x0100 ||| 0x0400

/-- The littlefs entry points `main` calls, with the arguments that vary.
`lfs_file_write` carries the whole buffer object and the `lfs_size_t` length;
the engine reads the first `size` bytes of `buffer`. -/
inductive BCall where
  | lfs_format
  | lfs_mount
  | lfs_mkdir (path : List Char)
  | lfs_file_open (path : List Char) (flags : Nat)
  | lfs_file_write (buffer : List Byte) (size : Nat)
  | lfs_file_close
  | lfs_unmount
deriving DecidableEq, Repr

/-- Everything the engine can see and change: its own objects (`LFS`,
`LFS_FILE`) and the mapped region it reaches through the callbacks. -/
structure Vol (σ : Type) where
  lfs : σ
  fsmmap : List Byte

/-- littlefs as seen by the builder: a deterministic machine answering each
call with a status and a new state.  `lfs0` is the zero-initialised static
storage, `zero_file` is `memset(&LFS_FILE, 0, sizeof(LFS_FILE))`. -/
structure BuilderEngine (σ : Type) where
  lfs0 : σ
  zero_file : σ → σ
  exec : Vol σ → BCall → Int × Vol σ

/-- What the builder finds on the host. -/
structure Host where
  /-- Contents of `./fido.crt`, `none` when it cannot be opened. -/
  fido_crt : Option (List Byte)
  /-- Contents of `./fido.key`, `none` when it cannot be opened. -/
  fido_key : Option (List Byte)
  /-- Initial contents of the first `char buffer[4096]` (uninitialised). -/
  stack_crt : List Byte
  /-- Initial contents of the second `char buffer[4096]` (uninitialised). -/
  stack_key : List Byte
  /-- The value of `open(ac[1], O_WRONLY | O_CREAT | O_EXCL, 0644)`: a
  descriptor, or `-1` when the path already exists or cannot be created. -/
  out_fd : Int
  /-- Whether `mmap` succeeds. -/
  mmap_ok : Bool

/-- `open(path, O_RDONLY)` followed by `read(fd, buffer, count)`: the returned
length and the buffer afterwards.  A regular file of `n` bytes gives
`min n count` bytes in the one call.  On a missing file `open` gives `-1` and
`read` on that descriptor gives `-1`, leaving the buffer as it was. -/
def host_read (src : Option (List Byte)) (buffer : List Byte) (count : Nat) :
    Int × List Byte :=
  match src with
  | none => (-1, buffer)
  | some d => ((min d.length count : Nat), d.take count ++ buffer.drop (min d.length count))

/-- Conversion of an `int` argument to `lfs_size_t`. -/
def size_of_int (i : Int) : Nat := (i % 2 ^ 32).toNat

/-- The observable course of one run of the builder. -/
structure BRun (σ : Type) where
  vol : Vol σ
  /-- The engine calls made so far, each with the status it returned. -/
  calls : List (BCall × Int)
  /-- The lines printed on standard output by `main` itself. -/
  stdout : List (List Char)

/-- One engine call followed by the `printf` of its status. -/
def BRun.call {σ : Type} (E : BuilderEngine σ) (run : BRun σ) (c : BCall)
    (msg : List Char) : Int × BRun σ :=
  let res := E.exec run.vol c
  (res.1, { vol := res.2, calls := run.calls ++ [(c, res.1)],
            stdout := run.stdout ++ [msg ++ (toString res.1).toList] })

/-- The `memset(&LFS_FILE, 0, sizeof(LFS_FILE))` before each open. -/
def BRun.zero_file {σ : Type} (E : BuilderEngine σ) (run : BRun σ) : BRun σ :=
  { run with vol := { run.vol with lfs := E.zero_file run.vol.lfs } }

/-- The block `if (r == 0) { ...; r = lfs_file_write(..., buffer, size); ...;
r = lfs_file_close(...); ... }` that follows each of the three opens; `r` is
the status of the open. -/
def BRun.write_close {σ : Type} (E : BuilderEngine σ) (r : Int) (run : BRun σ)
    (buffer : List Byte) (size : Nat) : BRun σ :=
  if r = 0 then
    let run := (run.call E (.lfs_file_write buffer size) "file write done, ret: ".toList).2
    (run.call E .lfs_file_close "file close done, ret: ".toList).2
  else run

/-- The result of `main`. -/
structure BResult (σ : Type) where
  exit_code : Int
  run : BRun σ
  stderr : List (List Char)
  /-- What was written to the file created at `ac[1]`, `none` when no file
  was created. -/
  output : Option (List Byte)

/-- The `main` of `gen_init_fs.c`; `an` is the argument count. -/
def gen_init_fs_main {σ : Type} (k : Consts) (E : BuilderEngine σ) (h : Host) (an : Nat) :
    BResult σ :=
  let run0 : BRun σ :=
    { vol := { lfs := E.lfs0, fsmmap := [] }, calls := [], stdout := [] }
  if an ≠ 2 then
    { exit_code := 1, run := run0,
      stderr := ["Error: output file name missing".toList], output := none }
  else if h.mmap_ok = false then
    { exit_code := 1, run := run0, stderr := [], output := none }
  else
    -- memset(fsmmap, 0xff, FILESYSTEM_SIZE)
    let run : BRun σ :=
      { vol := { lfs := E.lfs0, fsmmap := List.replicate k.FILESYSTEM_SIZE 0xff },
        calls := [], stdout := [] }
    let run := (run.call E .lfs_format "format done, ret: ".toList).2
    let run := (run.call E .lfs_mount "mount done, ret: ".toList).2
    let run := (run.call E (.lfs_mkdir "/fido".toList) "mkdir /fido done, ret: ".toList).2
    let run := (run.call E (.lfs_mkdir "/fido/x5c".toList) "mkdir /fido/x5c done, ret: ".toList).2
    let run := (run.call E (.lfs_mkdir "/fido/sec".toList) "mkdir /fido/sec done, ret: ".toList).2
    -- /fido/x5c/00; the host file is read inside the block
    let run := run.zero_file E
    let o := run.call E (.lfs_file_open "/fido/x5c/00".toList OPEN_FLAGS)
      "open /fido/x5c/00 done, ret: ".toList
    let run := BRun.write_close E o.1 o.2 (host_read h.fido_crt h.stack_crt 4096).2
      (size_of_int (host_read h.fido_crt h.stack_crt 4096).1)
    -- /fido/sec/00
    let run := run.zero_file E
    let o := run.call E (.lfs_file_open "/fido/sec/00".toList OPEN_FLAGS)
      "open /fido/sec/00 done, ret: ".toList
    let run := BRun.write_close E o.1 o.2 (host_read h.fido_key h.stack_key 4096).2
      (size_of_int (host_read h.fido_key h.stack_key 4096).1)
    let run := (run.call E (.lfs_mkdir "/trussed".toList) "mkdir /trussed done, ret: ".toList).2
    let run := (run.call E (.lfs_mkdir "/trussed/dat".toList)
      "mkdir /trussed/dat done, ret: ".toList).2
    -- /trussed/dat/rng-state.bin
    let run := run.zero_file E
    let o := run.call E (.lfs_file_open "/trussed/dat/rng-state.bin".toList OPEN_FLAGS)
      "open /trussed/dat/rng-state.bin done, ret: ".toList
    let run := BRun.write_close E o.1 o.2 rndbuf 32
    let run := (run.call E .lfs_unmount "unmount done, ret: ".toList).2
    -- open(ac[1], O_WRONLY | O_CREAT | O_EXCL, 0644); write(r, fsmmap, FILESYSTEM_SIZE)
    let output : Option (List Byte) :=
      if h.out_fd < 0 then none else some (run.vol.fsmmap.take k.FILESYSTEM_SIZE)
    { exit_code := 0,
      run := { run with
        stdout := run.stdout ++ ["file written to fd ".toList ++ (toString h.out_fd).toList] },
      stderr := [], output := output }

/-! ## `list_fs.c` : the image inspector -/

/-- `LFS_TYPE_REG` of `lfs.h`. -/
def LFS_TYPE_REG : Nat := 0x001

/-- `LFS_TYPE_DIR` of `lfs.h`. -/
def LFS_TYPE_DIR : Nat := 0x002

/-- `struct lfs_info`. -/
structure lfs_info where
  type : Nat
  size : Nat
  name : List Char
deriving DecidableEq, Repr

/-- littlefs as seen by the inspector.  `δ` is the content of a
`struct lfs_dir`.  The volume is mounted on a read-only mapping, and the
answers of the engine are taken to depend on the path, respectively on the
directory handle, only.  `LFS_NAME_MAX` is the constant of `lfs.h`. -/
structure InspectorEngine (δ : Type) where
  LFS_NAME_MAX : Nat
  lfs_dir_open : List Char → Int × δ
  lfs_dir_read : δ → Int × lfs_info × δ
  lfs_dir_close : δ → Int

/-- How a call of `recurse` ends: it returns, it calls `exit(1)`, or the
embedding runs out of fuel. -/
inductive Outcome where
  | returned
  | exited (code : Int)
  | out_of_fuel
deriving DecidableEq, Repr

/-- `snprintf(next_dn, LFS_NAME_MAX, "%s/%s", dn, name)`: at most
`LFS_NAME_MAX - 1` characters are stored before the terminating NUL. -/
def snprintf_path (name_max : Nat) (dn name : List Char) : List Char :=
  (dn ++ '/' :: name).take (name_max - 1)

/-- `%06x` applied to an `lfs_size_t`. -/
def fmt_06x (n : Nat) : List Char :=
  let d := Nat.toDigits 16 (u32 n)
  List.replicate (6 - d.length) '0' ++ d

/-- The line printed for one entry,
`printf("%.*s+ %c %06x %s\n", depth*2, "         ", ...)`; the precision
`depth*2` bounds how much of the nine-blank string is printed. -/
def entry_line (depth : Nat) (linfo : lfs_info) : List Char :=
  "         ".toList.take (depth * 2) ++ "+ ".toList
    ++ [if linfo.type = LFS_TYPE_REG then 'f' else 'd'] ++ " ".toList
    ++ fmt_06x (if linfo.type = LFS_TYPE_REG then linfo.size else 0) ++ " ".toList
    ++ linfo.name

/-- The test of line 27 of `list_fs.c`. -/
def is_dot_entry (linfo : lfs_info) : Bool :=
  linfo.type = LFS_TYPE_DIR ∧ (linfo.name = ".".toList ∨ linfo.name = "..".toList)

/-- The `while (1)` loop of `recurse`, with the recursive call as the
parameter `self`.  Returns how it ended, the directory handle and standard
output.  The first `Nat` bounds the number of iterations. -/
def dir_loop {δ : Type} (E : InspectorEngine δ)
    (self : Nat → List Char → List (List Char) → Outcome × List (List Char))
    (depth : Nat) (dn : List Char) :
    Nat → δ → List (List Char) → Outcome × δ × List (List Char)
  | 0, ldir, out => (.out_of_fuel, ldir, out)
  | fuel + 1, ldir, out =>
    let rd := E.lfs_dir_read ldir
    let r := rd.1
    let linfo := rd.2.1
    let ldir := rd.2.2
    if r = 0 then (.returned, ldir, out)
    else if r < 0 then
      (.exited 1, ldir,
        out ++ ["dirR ".toList ++ dn ++ " ".toList ++ (toString r).toList])
    else if is_dot_entry linfo then dir_loop E self depth dn fuel ldir out
    else
      let out := out ++ [entry_line depth linfo]
      if linfo.type = LFS_TYPE_DIR then
        let next_dn := snprintf_path E.LFS_NAME_MAX dn linfo.name
        match self (depth + 1) next_dn out with
        | (.returned, out) => dir_loop E self depth dn fuel ldir out
        | (oc, out) => (oc, ldir, out)
      else dir_loop E self depth dn fuel ldir out

/-- The function `recurse` of `list_fs.c`.  The first `Nat` is fuel: it bounds
the nesting of calls and the number of iterations of each loop.  Standard
output is threaded through, since what was printed stays printed when the
process exits. -/
def recurse {δ : Type} (E : InspectorEngine δ) :
    Nat → Nat → List Char → List (List Char) → Outcome × List (List Char)
  | 0, _, _, out => (.out_of_fuel, out)
  | fuel + 1, depth, dn, out =>
    let op := E.lfs_dir_open dn
    if op.1 ≠ LFS_ERR_OK then
      (.exited 1, out ++ ["dirO ".toList ++ dn ++ " ".toList ++ (toString op.1).toList])
    else
      match dir_loop E (fun d p o => recurse E fuel d p o) depth dn fuel op.2 out with
      | (.returned, ldir, out) =>
        let r := E.lfs_dir_close ldir
        if r ≠ LFS_ERR_OK then
          (.exited 1, out ++ ["dirC ".toList ++ dn ++ " ".toList ++ (toString r).toList])
        else (.returned, out)
      | (oc, _, out) => (oc, out)

/-! ## Directory trees, as the inspector specification speaks of them -/

/-- A finite directory tree in the order the engine lists it: what successive
`lfs_dir_read` calls on one directory yield, each real subdirectory with its
own listing.  `dots` stands for the two entries `.` (`false`) and `..`
(`true`), which littlefs reports with type `LFS_TYPE_DIR`. -/
inductive Listing where
  | done
  | dots (parent : Bool) (rest : Listing)
  | file (name : List Char) (size : Nat) (rest : Listing)
  | dir (name : List Char) (size : Nat) (sub : Listing) (rest : Listing)
deriving DecidableEq, Repr

/-- Name of a `dots` entry. -/
def dots_name (parent : Bool) : List Char := if parent then "..".toList else ".".toList

/-- Number of files and directories of a tree, `.` and `..` not counted. -/
def Listing.count : Listing → Nat
  | .done => 0
  | .dots _ rest => rest.count
  | .file _ _ rest => 1 + rest.count
  | .dir _ _ sub rest => 1 + sub.count + rest.count

/-- Number of constructors of a tree; enough fuel to traverse it. -/
def Listing.weight : Listing → Nat
  | .done => 1
  | .dots _ rest => 1 + rest.weight
  | .file _ _ rest => 1 + rest.weight
  | .dir _ _ sub rest => 1 + sub.weight + rest.weight

/-- One visited entry: its depth, its path from the root of the volume and
the record the engine reports for it. -/
structure Visit where
  depth : Nat
  path : List Char
  info : lfs_info
deriving DecidableEq, Repr

/-- Specification: the depth-first pre-order enumeration of a tree, children
in listing order, `.` and `..` left out.  `parent` is the path of the
directory being listed (empty for the root). -/
def preorder (depth : Nat) (parent : List Char) : Listing → List Visit
  | .done => []
  | .dots _ rest => preorder depth parent rest
  | .file name size rest =>
    { depth := depth, path := parent ++ '/' :: name,
      info := { type := LFS_TYPE_REG, size := size, name := name } }
      :: preorder depth parent rest
  | .dir name size sub rest =>
    { depth := depth, path := parent ++ '/' :: name,
      info := { type := LFS_TYPE_DIR, size := size, name := name } }
      :: (preorder (depth + 1) (parent ++ '/' :: name) sub ++ preorder depth parent rest)

/-- The engine lists the tree `t` through the handle `ldir` of the directory
the inspector opened as `dn`: every read succeeds with the next entry, the
read after the last entry returns `0`, the close succeeds, no file or real
subdirectory is named `.` or `..`, every real subdirectory has a path
`dn/name` shorter than `LFS_NAME_MAX`, opens successfully under that path and
lists its own subtree. -/
def Lists {δ : Type} (E : InspectorEngine δ) : List Char → δ → Listing → Prop
  | _, ldir, .done =>
    (E.lfs_dir_read ldir).1 = 0 ∧ E.lfs_dir_close (E.lfs_dir_read ldir).2.2 = LFS_ERR_OK
  | dn, ldir, .dots parent rest =>
    0 < (E.lfs_dir_read ldir).1
      ∧ (E.lfs_dir_read ldir).2.1.type = LFS_TYPE_DIR
      ∧ (E.lfs_dir_read ldir).2.1.name = dots_name parent
      ∧ Lists E dn (E.lfs_dir_read ldir).2.2 rest
  | dn, ldir, .file name size rest =>
    0 < (E.lfs_dir_read ldir).1
      ∧ (E.lfs_dir_read ldir).2.1 = { type := LFS_TYPE_REG, size := size, name := name }
      ∧ name ≠ ".".toList ∧ name ≠ "..".toList
      ∧ Lists E dn (E.lfs_dir_read ldir).2.2 rest
  | dn, ldir, .dir name size sub rest =>
    0 < (E.lfs_dir_read ldir).1
      ∧ (E.lfs_dir_read ldir).2.1 = { type := LFS_TYPE_DIR, size := size, name := name }
      ∧ name ≠ ".".toList ∧ name ≠ "..".toList
      ∧ (dn ++ '/' :: name).length < E.LFS_NAME_MAX
      ∧ (E.lfs_dir_open (dn ++ '/' :: name)).1 = LFS_ERR_OK
      ∧ Lists E (dn ++ '/' :: name) (E.lfs_dir_open (dn ++ '/' :: name)).2 sub
      ∧ Lists E dn (E.lfs_dir_read ldir).2.2 rest

/-- The engine presents the tree `t` under the path `dn`. -/
def Presents {δ : Type} (E : InspectorEngine δ) (dn : List Char) (t : Listing) : Prop :=
  (E.lfs_dir_open dn).1 = LFS_ERR_OK ∧ Lists E dn (E.lfs_dir_open dn).2 t


/-! ## Concrete inputs used to exercise the statements -/

/-- Build constants of a small device: four blocks of eight bytes. -/
def demo_consts : Consts := { FILESYSTEM_SIZE := 32, FILESYSTEM_BLK_SHIFT := 3 }

/-- A mapped region for `demo_consts` whose byte at address `i` is `i`. -/
def demo_store : List Byte := (List.range 32).map (fun i => Fin.ofNat i)

/-- Whether the run has an open of `path` that returned `0`. -/
def opened (calls : List (BCall × Int)) (path : List Char) : Bool :=
  decide ((BCall.lfs_file_open path OPEN_FLAGS, (0 : Int)) ∈ calls)


/-- An engine in which every call fails with `LFS_ERR_IO` (`-5`). -/
def failing_engine : BuilderEngine Unit where
  lfs0 := ()
  zero_file := fun s => s
  exec := fun v _ => (-5, v)

/-- An engine in which every call succeeds. -/
def ok_engine : BuilderEngine Unit where
  lfs0 := ()
  zero_file := fun s => s
  exec := fun v _ => (0, v)

/-- A host with a certificate of three bytes and a key of two bytes, on which
the mapping and the creation of the output file succeed. -/
def demo_host : Host where
  fido_crt := some [0x30, 0x82, 0x01]
  fido_key := some [0x30, 0x77]
  stack_crt := List.replicate 4096 0
  stack_key := List.replicate 4096 0
  out_fd := 3
  mmap_ok := true

/-- C4 as the claim states it: once a call has returned a negative status no
further call is made and no output file is written. -/
def AbortsOnFailure (calls : List (BCall × Int)) (output : Option (List Byte)) : Prop :=
  ∀ i c r, calls[i]? = some (c, r) → r < 0 → calls.length = i + 1 ∧ output = none


/-- The line printed for a visited entry. -/
def visit_line (v : Visit) : List Char := entry_line v.depth v.info

/-- The subdirectory `name` of a listing. -/
def Listing.find_dir (name : List Char) : Listing → Option Listing
  | .done => none
  | .dots _ rest => rest.find_dir name
  | .file _ _ rest => rest.find_dir name
  | .dir n _ sub rest => if n = name then some sub else rest.find_dir name

/-- The listing reached from `t` along the components `cs`. -/
def Listing.lookup (t : Listing) : List (List Char) → Option Listing
  | [] => some t
  | c :: cs =>
    match t.find_dir c with
    | some sub => sub.lookup cs
    | none => none

/-- The non-empty components of a path, `/` being the separator. -/
def components (p : List Char) : List (List Char) :=
  (p.splitOn '/').filter (fun c => !c.isEmpty)

/-- A stand-in for littlefs on a volume that holds the tree `t`, used to run
the inspector on concrete trees (littlefs is not part of these sources).  A
directory handle is the part of the listing not yet read; every read of an
entry returns `1`, the read at the end returns `0`; a path that does not
resolve gives `LFS_ERR_NOENT` (`-2`). -/
def listing_engine (name_max : Nat) (t : Listing) : InspectorEngine Listing where
  LFS_NAME_MAX := name_max
  lfs_dir_open := fun p =>
    match t.lookup (components p) with
    | some l => (0, l)
    | none => (-2, .done)
  lfs_dir_read := fun l =>
    match l with
    | .done => (0, { type := 0, size := 0, name := [] }, .done)
    | .dots parent rest =>
      (1, { type := LFS_TYPE_DIR, size := 0, name := dots_name parent }, rest)
    | .file name size rest => (1, { type := LFS_TYPE_REG, size := size, name := name }, rest)
    | .dir name size _ rest => (1, { type := LFS_TYPE_DIR, size := size, name := name }, rest)
  lfs_dir_close := fun _ => 0

/-- A directory listing that starts with the entries `.` and `..`. -/
def with_dots (l : Listing) : Listing := .dots false (.dots true l)

/-- The tree the image builder creates (sections 4.2 and 6 of the spec),
written out: siblings in the order of their creation, every directory listed
after its `.` and `..`; the sizes of the two blobs are parameters.  It is what
`volume_after` computes from the calls of the builder. -/
def builder_tree (crt_size key_size : Nat) : Listing :=
  with_dots
    (.dir "fido".toList 0
      (with_dots
        (.dir "x5c".toList 0 (with_dots (.file "00".toList crt_size .done))
          (.dir "sec".toList 0 (with_dots (.file "00".toList key_size .done)) .done)))
      (.dir "trussed".toList 0
        (with_dots
          (.dir "dat".toList 0 (with_dots (.file "rng-state.bin".toList 32 .done)) .done))
        .done))

/-- A root directory that holds, after `.` and `..`, an entry of type
`LFS_TYPE_REG` whose name is `.`. -/
def dot_file_tree : Listing := with_dots (.file ".".toList 7 .done)

/-- A root directory with one empty subdirectory whose name has 253
characters. -/
def long_name_tree : Listing :=
  with_dots (.dir (List.replicate 253 'a') 0 (with_dots .done) .done)

/-- The directories `/a/b/c/d/e` with the file `/a/b/c/d/e/f`. -/
def deep_tree : Listing :=
  with_dots (.dir "a".toList 0 (with_dots (.dir "b".toList 0 (with_dots
    (.dir "c".toList 0 (with_dots (.dir "d".toList 0 (with_dots
      (.dir "e".toList 0 (with_dots (.file "f".toList 1 .done)) .done)) .done)) .done))
    .done)) .done)

/-- Whether the engine lists a given tree can be decided by running it. -/
instance Lists.decidable {δ : Type} (E : InspectorEngine δ) :
    ∀ (dn : List Char) (ldir : δ) (t : Listing), Decidable (Lists E dn ldir t)
  | _, ldir, .done =>
    inferInstanceAs (Decidable
      ((E.lfs_dir_read ldir).1 = 0 ∧ E.lfs_dir_close (E.lfs_dir_read ldir).2.2 = LFS_ERR_OK))
  | dn, ldir, .dots parent rest =>
    have := Lists.decidable E dn (E.lfs_dir_read ldir).2.2 rest
    inferInstanceAs (Decidable
      (0 < (E.lfs_dir_read ldir).1
        ∧ (E.lfs_dir_read ldir).2.1.type = LFS_TYPE_DIR
        ∧ (E.lfs_dir_read ldir).2.1.name = dots_name parent
        ∧ Lists E dn (E.lfs_dir_read ldir).2.2 rest))
  | dn, ldir, .file name size rest =>
    have := Lists.decidable E dn (E.lfs_dir_read ldir).2.2 rest
    inferInstanceAs (Decidable
      (0 < (E.lfs_dir_read ldir).1
        ∧ (E.lfs_dir_read ldir).2.1 = { type := LFS_TYPE_REG, size := size, name := name }
        ∧ name ≠ ".".toList ∧ name ≠ "..".toList
        ∧ Lists E dn (E.lfs_dir_read ldir).2.2 rest))
  | dn, ldir, .dir name size sub rest =>
    have := Lists.decidable E dn (E.lfs_dir_read ldir).2.2 rest
    have := Lists.decidable E (dn ++ '/' :: name) (E.lfs_dir_open (dn ++ '/' :: name)).2 sub
    inferInstanceAs (Decidable
      (0 < (E.lfs_dir_read ldir).1
        ∧ (E.lfs_dir_read ldir).2.1 = { type := LFS_TYPE_DIR, size := size, name := name }
        ∧ name ≠ ".".toList ∧ name ≠ "..".toList
        ∧ (dn ++ '/' :: name).length < E.LFS_NAME_MAX
        ∧ (E.lfs_dir_open (dn ++ '/' :: name)).1 = LFS_ERR_OK
        ∧ Lists E (dn ++ '/' :: name) (E.lfs_dir_open (dn ++ '/' :: name)).2 sub
        ∧ Lists E dn (E.lfs_dir_read ldir).2.2 rest))

/-- Whether the engine presents a given tree can be decided by running it. -/
instance Presents.decidable {δ : Type} (E : InspectorEngine δ) (dn : List Char) (t : Listing) :
    Decidable (Presents E dn t) :=
  inferInstanceAs (Decidable
    ((E.lfs_dir_open dn).1 = LFS_ERR_OK ∧ Lists E dn (E.lfs_dir_open dn).2 t))


/-! ## What a printed line says, read without the code that printed it -/

/-- The sixteen lower-case hexadecimal digits. -/
def HEX_DIGITS : List Char := "0123456789abcdef".toList

/-- Value of a hexadecimal digit; `16` for any other character. -/
def hex_digit (c : Char) : Nat := HEX_DIGITS.indexOf c

/-- Value of a string of hexadecimal digits, most significant digit first. -/
def hex_value (digits : List Char) : Nat :=
  digits.foldl (fun acc c => 16 * acc + hex_digit c) 0

/-- Specification: the line `line` is the listing of the visited entry `v`.
It consists of `min (2 * depth) 9` blanks, the marker `+`, a blank, `f` for a
regular file and `d` otherwise, a blank, at least six hexadecimal digits whose
value is the size of a regular file as an `lfs_size_t` and `0` otherwise, a
blank, and the name of the entry. -/
def Shows (line : List Char) (v : Visit) : Prop :=
  ∃ digits : List Char,
    line = List.replicate (min (2 * v.depth) 9) ' '
        ++ '+' :: ' ' :: (if v.info.type = LFS_TYPE_REG then 'f' else 'd') :: ' '
        :: (digits ++ ' ' :: v.info.name)
      ∧ 6 ≤ digits.length
      ∧ (∀ c ∈ digits, hex_digit c < 16)
      ∧ hex_value digits = if v.info.type = LFS_TYPE_REG then v.info.size % 2 ^ 32 else 0

/-! ## The volume the builder leaves behind -/

/-- The listing with the entry `mk` added after its last entry. -/
def Listing.append (mk : Listing → Listing) : Listing → Listing
  | .done => mk .done
  | .dots parent rest => .dots parent (rest.append mk)
  | .file name size rest => .file name size (rest.append mk)
  | .dir name size sub rest => .dir name size sub (rest.append mk)

/-- Whether the listing has a file or a real directory called `name`. -/
def Listing.has_name (name : List Char) : Listing → Bool
  | .done => false
  | .dots _ rest => rest.has_name name
  | .file n _ rest => n = name || rest.has_name name
  | .dir n _ _ rest => n = name || rest.has_name name

/-- The listing with `g` applied to the listing of its subdirectory `name`. -/
def Listing.map_dir (name : List Char) (g : Listing → Listing) : Listing → Listing
  | .done => .done
  | .dots parent rest => .dots parent (rest.map_dir name g)
  | .file n size rest => .file n size (rest.map_dir name g)
  | .dir n size sub rest =>
    if n = name then .dir n size (g sub) rest else .dir n size sub (rest.map_dir name g)

/-- The listing with the size of its file `name` replaced by `size`. -/
def Listing.set_size (name : List Char) (size : Nat) : Listing → Listing
  | .done => .done
  | .dots parent rest => .dots parent (rest.set_size name size)
  | .file n s rest =>
    if n = name then .file n size rest else .file n s (rest.set_size name size)
  | .dir n s sub rest => .dir n s sub (rest.set_size name size)

/-- The tree with `g` applied to the listing of the directory reached along
the components `cs`. -/
def Listing.update_at : List (List Char) → (Listing → Listing) → Listing → Listing
  | [], g, t => g t
  | c :: cs, g, t => t.map_dir c (Listing.update_at cs g)

/-- State of the stand-in for littlefs used with the builder: the tree of the
volume, and for the file behind `LFS_FILE` its path and the write position. -/
structure Fs where
  tree : Listing
  file : Option (List (List Char) × Nat)
deriving DecidableEq, Repr

/-- Modelled from the spec: what one littlefs call does to the tree of the
volume (littlefs is not part of these sources).  A directory lists its
entries in the order of their creation, after `.` and `..` (section 4.3:
typically insertion order).  `lfs_mkdir` fails with `LFS_ERR_NOENT` (`-2`) when
the parent is missing and with `LFS_ERR_EXIST` (`-17`) when the name is taken;
`lfs_file_open` with the flags of the builder creates the file or cuts it to size
`0`; `lfs_file_write` writes `size` bytes at the write position and returns
`size`, and fails with `LFS_ERR_BADF` (`-9`) without an open file.  The
encoding of the tree in the mapped region is that of littlefs and is not
modelled: the region is left as it is. -/
def fs_exec (v : Vol Fs) (c : BCall) : Int × Vol Fs :=
  match c with
  | .lfs_format => (0, { v with lfs := { tree := .dots false (.dots true .done), file := none } })
  | .lfs_mount => (0, v)
  | .lfs_mkdir path =>
    let cs := components path
    match cs.getLast?, v.lfs.tree.lookup cs.dropLast with
    | some name, some parent =>
      if parent.has_name name then (-17, v)
      else
        (0, { v with lfs := { v.lfs with
          tree := v.lfs.tree.update_at cs.dropLast
            (Listing.append (.dir name 0 (.dots false (.dots true .done)))) } })
    | _, _ => (-2, v)
  | .lfs_file_open path _ =>
    let cs := components path
    match cs.getLast?, v.lfs.tree.lookup cs.dropLast with
    | some name, some parent =>
      if parent.has_name name then
        (0, { v with lfs :=
          { tree := v.lfs.tree.update_at cs.dropLast (Listing.set_size name 0),
            file := some (cs, 0) } })
      else
        (0, { v with lfs :=
          { tree := v.lfs.tree.update_at cs.dropLast (Listing.append (.file name 0)),
            file := some (cs, 0) } })
    | _, _ => (-2, v)
  | .lfs_file_write _ size =>
    match v.lfs.file with
    | some (cs, pos) =>
      match cs.getLast? with
      | some name =>
        (size, { v with lfs :=
          { tree := v.lfs.tree.update_at cs.dropLast (Listing.set_size name (pos + size)),
            file := some (cs, pos + size) } })
      | none => (-9, v)
    | none => (-9, v)
  | .lfs_file_close => (0, { v with lfs := { v.lfs with file := none } })
  | .lfs_unmount => (0, v)

/-- The stand-in for littlefs used with the builder. -/
def fs_engine : BuilderEngine Fs where
  lfs0 := { tree := .done, file := none }
  zero_file := fun s => { s with file := none }
  exec := fs_exec

/-- Modelled from the spec: the state of the volume after one more call of
the builder that returned `status`; a call that failed leaves it as it was. -/
def fs_step (s : Fs) (c : BCall × Int) : Fs :=
  if c.2 < 0 then s else (fs_exec { lfs := s, fsmmap := [] } c.1).2.lfs

/-- Modelled from the spec: the tree of the volume after the calls of a run of
the builder, whatever engine made them: the tree the image builder creates. -/
def volume_after (calls : List (BCall × Int)) : Listing :=
  (calls.foldl fs_step { tree := .done, file := none }).tree

/-- The call did not fail: `lfs_file_write` returned a number of bytes, any
other call returned `0`. -/
def clean_call (cr : BCall × Int) : Bool :=
  match cr.1 with
  | .lfs_file_write _ _ => decide (0 ≤ cr.2)
  | _ => decide (cr.2 = 0)

/-- No call of the run failed. -/
def Clean (calls : List (BCall × Int)) : Prop :=
  ∀ cr ∈ calls, clean_call cr = true
/-! ## Properties of the block device -/

/-- With a shift below 32 the block size is the power of two. -/
theorem FS_BLKSIZE_eq (k : Consts) (hS : k.FILESYSTEM_BLK_SHIFT < 32) :
    FS_BLKSIZE k = 2 ^ k.FILESYSTEM_BLK_SHIFT := by
  unfold FS_BLKSIZE u32
  rw [Nat.shiftLeft_eq, Nat.one_mul]
  exact Nat.mod_eq_of_lt (Nat.pow_lt_pow_right (by norm_num) hS)

/-- For a size that fits 32 bits the block count is the quotient. -/
theorem block_count_eq (k : Consts) (hZ : k.FILESYSTEM_SIZE < 2 ^ 32) :
    (LFS_CONFIG k).block_count = k.FILESYSTEM_SIZE / 2 ^ k.FILESYSTEM_BLK_SHIFT := by
  show u32 (k.FILESYSTEM_SIZE >>> k.FILESYSTEM_BLK_SHIFT) = _
  unfold u32
  rw [Nat.shiftRight_eq_div_pow]
  exact Nat.mod_eq_of_lt (lt_of_le_of_lt (Nat.div_le_self _ _) hZ)

/-- When some block index is below the block count, the shift is below 32:
a larger shift leaves no block in a region whose size fits 32 bits. -/
theorem shift_lt (k : Consts) (b : Nat) (hZ : k.FILESYSTEM_SIZE < 2 ^ 32)
    (hb : b < (LFS_CONFIG k).block_count) : k.FILESYSTEM_BLK_SHIFT < 32 := by
  by_contra hS
  rw [block_count_eq k hZ] at hb
  have h1 : 2 ^ 32 ≤ 2 ^ k.FILESYSTEM_BLK_SHIFT :=
    Nat.pow_le_pow_right (by norm_num) (by omega)
  rw [Nat.div_eq_of_lt (by omega)] at hb
  omega

/-- A block below the block count lies wholly inside the mapped region. -/
theorem block_inside (k : Consts) (b : Nat) (hZ : k.FILESYSTEM_SIZE < 2 ^ 32)
    (hb : b < (LFS_CONFIG k).block_count) :
    b * 2 ^ k.FILESYSTEM_BLK_SHIFT + 2 ^ k.FILESYSTEM_BLK_SHIFT ≤ k.FILESYSTEM_SIZE := by
  rw [block_count_eq k hZ] at hb
  have h1 : (b + 1) * 2 ^ k.FILESYSTEM_BLK_SHIFT ≤ k.FILESYSTEM_SIZE :=
    (Nat.le_div_iff_mul_le (Nat.pos_pow_of_pos _ (by norm_num))).1 hb
  linarith [Nat.succ_mul b (2 ^ k.FILESYSTEM_BLK_SHIFT)]

/-- For a block below the block count the 32-bit shift does not wrap. -/
theorem blk_off_eq (k : Consts) (b : Nat) (hS : k.FILESYSTEM_BLK_SHIFT < 32)
    (hZ : k.FILESYSTEM_SIZE < 2 ^ 32) (hb : b < (LFS_CONFIG k).block_count) :
    blk_off k b = b * (LFS_CONFIG k).block_size := by
  show u32 (b <<< k.FILESYSTEM_BLK_SHIFT) = b * FS_BLKSIZE k
  rw [FS_BLKSIZE_eq k hS, Nat.shiftLeft_eq]
  have := block_inside k b hZ hb
  have hp : 0 < 2 ^ k.FILESYSTEM_BLK_SHIFT := Nat.pos_pow_of_pos _ (by norm_num)
  exact Nat.mod_eq_of_lt (by omega)

/-- Reading `n` items at offset `a + o` from a list spliced as `A ++ B ++ C`
with `A` of length `a` reads inside `B`. -/
theorem splice_read {α : Type} (A B C : List α) (a o n : Nat) (hA : A.length = a)
    (hB : o + n ≤ B.length) :
    ((A ++ B ++ C).drop (a + o)).take n = (B.drop o).take n := by
  subst hA
  rw [List.append_assoc, List.drop_append, List.drop_append_of_le_length (by omega),
    List.take_append_of_le_length (by rw [List.length_drop]; omega)]

/-- Items before the spliced part are those of the original list. -/
theorem splice_before {α : Type} (m B : List α) (a n i : Nat) (ha : a + n ≤ m.length)
    (hi : i < a) : (m.take a ++ B ++ m.drop (a + n))[i]? = m[i]? := by
  rw [List.append_assoc, List.getElem?_append_left (by rw [List.length_take]; omega),
    List.getElem?_take_of_lt hi]

/-- Items after the spliced part are those of the original list. -/
theorem splice_after {α : Type} (m B : List α) (a n i : Nat) (ha : a + n ≤ m.length)
    (hB : B.length = n) (hi : a + n ≤ i) :
    (m.take a ++ B ++ m.drop (a + n))[i]? = m[i]? := by
  have hl : (m.take a ++ B).length = a + n := by
    rw [List.length_append, List.length_take, hB]; omega
  rw [List.getElem?_append_right (by omega), hl, List.getElem?_drop]
  congr 1; omega

/-- Splicing keeps the length. -/
theorem splice_length {α : Type} (m B : List α) (a n : Nat) (ha : a + n ≤ m.length)
    (hB : B.length = n) : (m.take a ++ B ++ m.drop (a + n)).length = m.length := by
  simp [List.length_append, List.length_take, List.length_drop, hB]; omega


/-- Unfolding of `mm_read` on a range inside the mapping. -/
theorem mm_read_inside (k : Consts) (m : List Byte) (c : lfs_config) (b o sz : Nat)
    (h : blk_off k b + o + sz ≤ m.length) :
    mm_read k m c b o sz = some (LFS_ERR_OK, m, (m.drop (blk_off k b + o)).take sz) := by
  simp [mm_read, mem_load, h]

/-- C2: for a mapped region of `FILESYSTEM_SIZE` bytes, `FILESYSTEM_SIZE`
being an `lfs_size_t` value (below `2^32`), `mm_read` of a block below
`block_count` with `o + sz <= block_size` returns `LFS_ERR_OK`, leaves the
region as it was and fills the buffer with exactly the `sz` bytes of the region
that start at byte address `b * block_size + o`; the address the code computes,
`(b << FILESYSTEM_BLK_SHIFT) + o` with the shift in 32 bits, is that address,
and the range read lies inside the region. -/
theorem mm_read_reads_store (k : Consts) (fsmmap : List Byte) (b o sz : Nat)
    (hZ : k.FILESYSTEM_SIZE < 2 ^ 32)
    (hm : fsmmap.length = k.FILESYSTEM_SIZE)
    (hb : b < (LFS_CONFIG k).block_count)
    (hr : o + sz ≤ (LFS_CONFIG k).block_size) :
    mm_read k fsmmap (LFS_CONFIG k) b o sz
        = some (LFS_ERR_OK, fsmmap,
            (fsmmap.drop (b * (LFS_CONFIG k).block_size + o)).take sz)
      ∧ ((fsmmap.drop (b * (LFS_CONFIG k).block_size + o)).take sz).length = sz
      ∧ (∀ i, i < sz →
          ((fsmmap.drop (b * (LFS_CONFIG k).block_size + o)).take sz)[i]?
            = fsmmap[b * (LFS_CONFIG k).block_size + o + i]?)
      ∧ blk_off k b + o = b * (LFS_CONFIG k).block_size + o
      ∧ b * (LFS_CONFIG k).block_size + o + sz ≤ fsmmap.length := by
  have hS := shift_lt k b hZ hb
  have hoff := blk_off_eq k b hS hZ hb
  have hin := block_inside k b hZ hb
  have hbs : (LFS_CONFIG k).block_size = 2 ^ k.FILESYSTEM_BLK_SHIFT := FS_BLKSIZE_eq k hS
  rw [hbs] at hr hoff ⊢
  have hle : b * 2 ^ k.FILESYSTEM_BLK_SHIFT + o + sz ≤ fsmmap.length := by omega
  refine ⟨?_, ?_, ?_, by rw [hoff], hle⟩
  · rw [mm_read_inside k fsmmap _ b o sz (by rw [hoff]; exact hle), hoff]
  · rw [List.length_take, List.length_drop]; omega
  · intro i hi
    rw [List.getElem?_take_of_lt hi, List.getElem?_drop]

/-- C1: under the same conditions on the build constants, with the configured
`block_size` equal to `1 << FILESYSTEM_BLK_SHIFT`, `mm_erase` of a block below
`block_count` returns `LFS_ERR_OK`, and afterwards every `mm_read` of that
block with `o + sz <= block_size` returns `LFS_ERR_OK` with a buffer of `sz`
bytes that are all `0xFF`. -/
theorem mm_erase_reads_ff (k : Consts) (fsmmap : List Byte) (c : lfs_config) (b : Nat)
    (hZ : k.FILESYSTEM_SIZE < 2 ^ 32)
    (hm : fsmmap.length = k.FILESYSTEM_SIZE)
    (hc : c.block_size = 1 <<< k.FILESYSTEM_BLK_SHIFT)
    (hb : b < (LFS_CONFIG k).block_count) :
    ∃ erased, mm_erase k fsmmap c b = some (LFS_ERR_OK, erased)
      ∧ ∀ o sz, o + sz ≤ c.block_size →
          mm_read k erased c b o sz = some (LFS_ERR_OK, erased, List.replicate sz 0xff) := by
  have hS := shift_lt k b hZ hb
  have hoff := blk_off_eq k b hS hZ hb
  have hin := block_inside k b hZ hb
  have hbs : (LFS_CONFIG k).block_size = 2 ^ k.FILESYSTEM_BLK_SHIFT := FS_BLKSIZE_eq k hS
  rw [hbs] at hoff
  rw [Nat.shiftLeft_eq, Nat.one_mul] at hc
  have hfit : blk_off k b + c.block_size ≤ fsmmap.length := by rw [hoff, hc]; omega
  refine ⟨fsmmap.take (blk_off k b) ++ List.replicate c.block_size 0xff
      ++ fsmmap.drop (blk_off k b + c.block_size), ?_, ?_⟩
  · simp [mm_erase, mem_fill, hfit]
  · intro o sz hr
    have hlen := splice_length fsmmap (List.replicate c.block_size (0xff : Byte))
      (blk_off k b) c.block_size hfit (List.length_replicate _ _)
    rw [mm_read_inside _ _ _ _ _ _ (by rw [hlen]; omega),
      splice_read _ _ _ (blk_off k b) o sz (by rw [List.length_take]; omega)
        (by rw [List.length_replicate]; exact hr),
      List.drop_replicate, List.take_replicate, Nat.min_eq_left (by omega)]

/-- C3: under the same conditions on the build constants, `mm_prog` of `data`
with length `|data|` at a block below `block_count` and an offset with
`o + |data| <= block_size` returns `LFS_ERR_OK`, and the following `mm_read`
of the same block, offset and length returns `LFS_ERR_OK` with a buffer equal
to `data`. -/
theorem mm_prog_read_roundtrip (k : Consts) (fsmmap : List Byte) (b o : Nat)
    (data : List Byte)
    (hZ : k.FILESYSTEM_SIZE < 2 ^ 32)
    (hm : fsmmap.length = k.FILESYSTEM_SIZE)
    (hb : b < (LFS_CONFIG k).block_count)
    (hr : o + data.length ≤ (LFS_CONFIG k).block_size) :
    ∃ programmed,
      mm_prog k fsmmap (LFS_CONFIG k) b o data data.length = some (LFS_ERR_OK, programmed)
      ∧ mm_read k programmed (LFS_CONFIG k) b o data.length
          = some (LFS_ERR_OK, programmed, data) := by
  have hS := shift_lt k b hZ hb
  have hoff := blk_off_eq k b hS hZ hb
  have hin := block_inside k b hZ hb
  have hbs : (LFS_CONFIG k).block_size = 2 ^ k.FILESYSTEM_BLK_SHIFT := FS_BLKSIZE_eq k hS
  rw [hbs] at hoff hr
  have hfit : blk_off k b + o + data.length ≤ fsmmap.length := by rw [hoff]; omega
  refine ⟨fsmmap.take (blk_off k b + o) ++ data.take data.length
      ++ fsmmap.drop (blk_off k b + o + data.length), ?_, ?_⟩
  · simp [mm_prog, mem_store, hfit]
  · have hlen := splice_length fsmmap (data.take data.length) (blk_off k b + o) data.length
      hfit (by simp)
    rw [mm_read_inside _ _ _ _ _ _ (by rw [hlen]; exact hfit)]
    have h := splice_read (fsmmap.take (blk_off k b + o)) (data.take data.length)
      (fsmmap.drop (blk_off k b + o + data.length)) (blk_off k b + o) 0 data.length
      (by rw [List.length_take]; omega) (by simp)
    rw [Nat.add_zero, List.drop_zero, List.take_length, List.take_length] at h
    rw [List.take_length, h]

/-- C10: under the same conditions on the build constants and for a block
below `block_count` with `o + sz <= block_size`: `mm_prog` succeeds, keeps the
size of the region and leaves every byte outside
`[b*block_size + o, b*block_size + o + sz)` as it was; `mm_erase` succeeds,
keeps the size of the region and leaves every byte of every other block as it
was; `mm_read` succeeds and returns the region as it was; so does `mm_noop`. -/
theorem vbd_frame (k : Consts) (fsmmap : List Byte) (b o sz : Nat) (data : List Byte)
    (hZ : k.FILESYSTEM_SIZE < 2 ^ 32)
    (hm : fsmmap.length = k.FILESYSTEM_SIZE)
    (hb : b < (LFS_CONFIG k).block_count)
    (hr : o + sz ≤ (LFS_CONFIG k).block_size)
    (hd : sz ≤ data.length) :
    (∃ programmed,
        mm_prog k fsmmap (LFS_CONFIG k) b o data sz = some (LFS_ERR_OK, programmed)
        ∧ programmed.length = fsmmap.length
        ∧ ∀ i, (i < b * (LFS_CONFIG k).block_size + o
                  ∨ b * (LFS_CONFIG k).block_size + o + sz ≤ i) →
            programmed[i]? = fsmmap[i]?)
      ∧ (∃ erased,
        mm_erase k fsmmap (LFS_CONFIG k) b = some (LFS_ERR_OK, erased)
        ∧ erased.length = fsmmap.length
        ∧ ∀ b2 j, b2 ≠ b → j < (LFS_CONFIG k).block_size →
            erased[b2 * (LFS_CONFIG k).block_size + j]?
              = fsmmap[b2 * (LFS_CONFIG k).block_size + j]?)
      ∧ (∃ buf, mm_read k fsmmap (LFS_CONFIG k) b o sz = some (LFS_ERR_OK, fsmmap, buf))
      ∧ mm_noop fsmmap (LFS_CONFIG k) = (LFS_ERR_OK, fsmmap) := by
  have hS := shift_lt k b hZ hb
  have hoff := blk_off_eq k b hS hZ hb
  have hin := block_inside k b hZ hb
  have hbs : (LFS_CONFIG k).block_size = 2 ^ k.FILESYSTEM_BLK_SHIFT := FS_BLKSIZE_eq k hS
  rw [hbs] at hoff hr ⊢
  have hfit : blk_off k b + o + sz ≤ fsmmap.length := by rw [hoff]; omega
  have hfitE : blk_off k b + 2 ^ k.FILESYSTEM_BLK_SHIFT ≤ fsmmap.length := by
    rw [hoff]; omega
  refine ⟨⟨fsmmap.take (blk_off k b + o) ++ data.take sz
      ++ fsmmap.drop (blk_off k b + o + sz), ?_, ?_, ?_⟩,
    ⟨fsmmap.take (blk_off k b) ++ List.replicate (2 ^ k.FILESYSTEM_BLK_SHIFT) 0xff
      ++ fsmmap.drop (blk_off k b + 2 ^ k.FILESYSTEM_BLK_SHIFT), ?_, ?_, ?_⟩,
    ⟨_, mm_read_inside k fsmmap _ b o sz hfit⟩, rfl⟩
  · simp [mm_prog, mem_store, hfit, hd]
  · exact splice_length _ _ _ _ hfit (by rw [List.length_take]; omega)
  · intro i hi
    rw [← hoff] at hi
    rcases hi with hi | hi
    · exact splice_before _ _ _ _ _ hfit hi
    · exact splice_after _ _ _ _ _ hfit (by rw [List.length_take]; omega) hi
  · have : (LFS_CONFIG k).block_size = 2 ^ k.FILESYSTEM_BLK_SHIFT := hbs
    simp [mm_erase, mem_fill, this, hfitE]
  · exact splice_length _ _ _ _ hfitE (List.length_replicate _ _)
  · intro b2 j hne hj
    rcases Nat.lt_or_gt_of_ne hne with hlt | hgt
    · have h1 : (b2 + 1) * 2 ^ k.FILESYSTEM_BLK_SHIFT ≤ b * 2 ^ k.FILESYSTEM_BLK_SHIFT :=
        Nat.mul_le_mul_right _ hlt
      rw [Nat.succ_mul] at h1
      exact splice_before _ _ _ _ _ hfitE (by rw [hoff]; omega)
    · have h1 : (b + 1) * 2 ^ k.FILESYSTEM_BLK_SHIFT ≤ b2 * 2 ^ k.FILESYSTEM_BLK_SHIFT :=
        Nat.mul_le_mul_right _ hgt
      rw [Nat.succ_mul] at h1
      exact splice_after _ _ _ _ _ hfitE (List.length_replicate _ _) (by rw [hoff]; omega)


/-- Witness of C2: bytes 19 to 22 of the demonstration region are read from
block 2 at offset 3. -/
theorem mm_read_reads_store_witness :
    (demo_consts.FILESYSTEM_SIZE < 2 ^ 32
      ∧ demo_store.length = demo_consts.FILESYSTEM_SIZE
      ∧ 2 < (LFS_CONFIG demo_consts).block_count
      ∧ 3 + 4 ≤ (LFS_CONFIG demo_consts).block_size)
      ∧ mm_read demo_consts demo_store (LFS_CONFIG demo_consts) 2 3 4
          = some (LFS_ERR_OK, demo_store, [19, 20, 21, 22]) :=
  ⟨⟨by decide, by decide, by decide, by decide⟩,
    (mm_read_reads_store demo_consts demo_store 2 3 4 (by decide) (by decide) (by decide)
      (by decide)).1⟩

/-- Witness of C1: block 1 of the demonstration region reads back as `0xFF`
after its erase. -/
theorem mm_erase_reads_ff_witness :
    (demo_consts.FILESYSTEM_SIZE < 2 ^ 32
      ∧ demo_store.length = demo_consts.FILESYSTEM_SIZE
      ∧ (LFS_CONFIG demo_consts).block_size = 1 <<< demo_consts.FILESYSTEM_BLK_SHIFT
      ∧ 1 < (LFS_CONFIG demo_consts).block_count)
      ∧ ∃ erased,
          mm_erase demo_consts demo_store (LFS_CONFIG demo_consts) 1 = some (LFS_ERR_OK, erased)
          ∧ ∀ o sz, o + sz ≤ (LFS_CONFIG demo_consts).block_size →
              mm_read demo_consts erased (LFS_CONFIG demo_consts) 1 o sz
                = some (LFS_ERR_OK, erased, List.replicate sz 0xff) :=
  ⟨⟨by decide, by decide, by decide, by decide⟩,
    mm_erase_reads_ff demo_consts demo_store (LFS_CONFIG demo_consts) 1 (by decide) (by decide)
      (by decide) (by decide)⟩

/-- Witness of C3: three bytes programmed into block 3 at offset 2 are read
back. -/
theorem mm_prog_read_roundtrip_witness :
    (demo_consts.FILESYSTEM_SIZE < 2 ^ 32
      ∧ demo_store.length = demo_consts.FILESYSTEM_SIZE
      ∧ 3 < (LFS_CONFIG demo_consts).block_count
      ∧ 2 + [0xde, 0xad, 0x01].length ≤ (LFS_CONFIG demo_consts).block_size)
      ∧ ∃ programmed,
          mm_prog demo_consts demo_store (LFS_CONFIG demo_consts) 3 2 [0xde, 0xad, 0x01]
              [0xde, 0xad, 0x01].length = some (LFS_ERR_OK, programmed)
          ∧ mm_read demo_consts programmed (LFS_CONFIG demo_consts) 3 2
              [0xde, 0xad, 0x01].length = some (LFS_ERR_OK, programmed, [0xde, 0xad, 0x01]) :=
  ⟨⟨by decide, by decide, by decide, by decide⟩,
    mm_prog_read_roundtrip demo_consts demo_store 3 2 [0xde, 0xad, 0x01] (by decide)
      (by decide) (by decide) (by decide)⟩

/-- Witness of C10: the `mm_noop` and `mm_read` parts on the demonstration
region, block 0, offset 4, two bytes. -/
theorem vbd_frame_witness :
    (demo_consts.FILESYSTEM_SIZE < 2 ^ 32
      ∧ demo_store.length = demo_consts.FILESYSTEM_SIZE
      ∧ 0 < (LFS_CONFIG demo_consts).block_count
      ∧ 4 + 2 ≤ (LFS_CONFIG demo_consts).block_size
      ∧ 2 ≤ [0x00, 0x11].length)
      ∧ (∃ buf, mm_read demo_consts demo_store (LFS_CONFIG demo_consts) 0 4 2
            = some (LFS_ERR_OK, demo_store, buf))
      ∧ mm_noop demo_store (LFS_CONFIG demo_consts) = (LFS_ERR_OK, demo_store) :=
  ⟨⟨by decide, by decide, by decide, by decide, by decide⟩,
    (vbd_frame demo_consts demo_store 0 4 2 [0x00, 0x11] (by decide) (by decide) (by decide)
      (by decide) (by decide)).2.2⟩

/-! ## Properties of the builder -/

/-- A call appends itself, with its status, to the calls made so far. -/
theorem call_calls {σ : Type} (E : BuilderEngine σ) (run : BRun σ) (c : BCall)
    (msg : List Char) :
    (run.call E c msg).2.calls = run.calls ++ [(c, (run.call E c msg).1)] := rfl

/-- Clearing the file object makes no call. -/
theorem zero_file_calls {σ : Type} (E : BuilderEngine σ) (run : BRun σ) :
    (run.zero_file E).calls = run.calls := rfl

/-- The calls of the write-and-close block. -/
theorem write_close_calls {σ : Type} (E : BuilderEngine σ) (r : Int) (run : BRun σ)
    (buffer : List Byte) (size : Nat) :
    (BRun.write_close E r run buffer size).calls
      = run.calls ++
        (if r = 0 then
          [(.lfs_file_write buffer size,
              (run.call E (.lfs_file_write buffer size) "file write done, ret: ".toList).1),
           (.lfs_file_close,
              ((run.call E (.lfs_file_write buffer size) "file write done, ret: ".toList).2.call
                E .lfs_file_close "file close done, ret: ".toList).1)]
        else []) := by
  unfold BRun.write_close
  split
  · simp only [call_calls, List.append_assoc, List.singleton_append]
  · simp

/-- The calls of a run that gets past the argument check and the mapping, with
the statuses named. -/
theorem builder_calls {σ : Type} (k : Consts) (E : BuilderEngine σ) (h : Host)
    (hmap : h.mmap_ok = true) :
    ∃ r0 r1 r2 r3 r4 r5 w1 c1 r6 w2 c2 r7 r8 r9 w3 c3 r10 : Int,
      (gen_init_fs_main k E h 2).run.calls
        = [(.lfs_format, r0), (.lfs_mount, r1), (.lfs_mkdir "/fido".toList, r2),
           (.lfs_mkdir "/fido/x5c".toList, r3), (.lfs_mkdir "/fido/sec".toList, r4),
           (.lfs_file_open "/fido/x5c/00".toList OPEN_FLAGS, r5)]
          ++ (if r5 = 0 then
                [(.lfs_file_write (host_read h.fido_crt h.stack_crt 4096).2
                    (size_of_int (host_read h.fido_crt h.stack_crt 4096).1), w1),
                 (.lfs_file_close, c1)]
              else [])
          ++ [(.lfs_file_open "/fido/sec/00".toList OPEN_FLAGS, r6)]
          ++ (if r6 = 0 then
                [(.lfs_file_write (host_read h.fido_key h.stack_key 4096).2
                    (size_of_int (host_read h.fido_key h.stack_key 4096).1), w2),
                 (.lfs_file_close, c2)]
              else [])
          ++ [(.lfs_mkdir "/trussed".toList, r7), (.lfs_mkdir "/trussed/dat".toList, r8),
              (.lfs_file_open "/trussed/dat/rng-state.bin".toList OPEN_FLAGS, r9)]
          ++ (if r9 = 0 then [(.lfs_file_write rndbuf 32, w3), (.lfs_file_close, c3)] else [])
          ++ [(.lfs_unmount, r10)] := by
  have raw : ∃ r0 r1 r2 r3 r4 r5 w1 c1 r6 w2 c2 r7 r8 r9 w3 c3 r10 : Int,
      (gen_init_fs_main k E h 2).run.calls
        = [] ++ [(.lfs_format, r0)] ++ [(.lfs_mount, r1)] ++ [(.lfs_mkdir "/fido".toList, r2)]
          ++ [(.lfs_mkdir "/fido/x5c".toList, r3)] ++ [(.lfs_mkdir "/fido/sec".toList, r4)]
          ++ [(.lfs_file_open "/fido/x5c/00".toList OPEN_FLAGS, r5)]
          ++ (if r5 = 0 then
                [(.lfs_file_write (host_read h.fido_crt h.stack_crt 4096).2
                    (size_of_int (host_read h.fido_crt h.stack_crt 4096).1), w1),
                 (.lfs_file_close, c1)]
              else [])
          ++ [(.lfs_file_open "/fido/sec/00".toList OPEN_FLAGS, r6)]
          ++ (if r6 = 0 then
                [(.lfs_file_write (host_read h.fido_key h.stack_key 4096).2
                    (size_of_int (host_read h.fido_key h.stack_key 4096).1), w2),
                 (.lfs_file_close, c2)]
              else [])
          ++ [(.lfs_mkdir "/trussed".toList, r7)] ++ [(.lfs_mkdir "/trussed/dat".toList, r8)]
          ++ [(.lfs_file_open "/trussed/dat/rng-state.bin".toList OPEN_FLAGS, r9)]
          ++ (if r9 = 0 then [(.lfs_file_write rndbuf 32, w3), (.lfs_file_close, c3)] else [])
          ++ [(.lfs_unmount, r10)] := by
    simp only [gen_init_fs_main, hmap, ne_eq, not_true_eq_false, Bool.true_eq_false, if_false,
      call_calls, zero_file_calls, write_close_calls]
    exact ⟨_, _, _, _, _, _, _, _, _, _, _, _, _, _, _, _, _, rfl⟩
  obtain ⟨r0, r1, r2, r3, r4, r5, w1, c1, r6, w2, c2, r7, r8, r9, w3, c3, r10, e⟩ := raw
  exact ⟨r0, r1, r2, r3, r4, r5, w1, c1, r6, w2, c2, r7, r8, r9, w3, c3, r10, by
    rw [e]; simp only [List.nil_append, List.singleton_append, List.cons_append,
      List.append_assoc]⟩

/-- The exit status and the output file of a run that gets past the argument
check and the mapping. -/
theorem builder_output {σ : Type} (k : Consts) (E : BuilderEngine σ) (h : Host)
    (hmap : h.mmap_ok = true) :
    (gen_init_fs_main k E h 2).exit_code = 0
      ∧ (gen_init_fs_main k E h 2).output
          = if h.out_fd < 0 then none
            else some ((gen_init_fs_main k E h 2).run.vol.fsmmap.take k.FILESYSTEM_SIZE) := by
  simp only [gen_init_fs_main, hmap, ne_eq, not_true_eq_false, Bool.true_eq_false, if_false,
    and_self]


/-- The sequence of calls of a run that gets past the argument check and the
mapping: every step is made, the write and the close of a file exactly when
its open returned `0`. -/
theorem builder_call_sequence {σ : Type} (k : Consts) (E : BuilderEngine σ) (h : Host)
    (hmap : h.mmap_ok = true) :
    (gen_init_fs_main k E h 2).run.calls.map Prod.fst
      = [.lfs_format, .lfs_mount, .lfs_mkdir "/fido".toList, .lfs_mkdir "/fido/x5c".toList,
         .lfs_mkdir "/fido/sec".toList, .lfs_file_open "/fido/x5c/00".toList OPEN_FLAGS]
        ++ (if opened (gen_init_fs_main k E h 2).run.calls "/fido/x5c/00".toList then
              [.lfs_file_write (host_read h.fido_crt h.stack_crt 4096).2
                  (size_of_int (host_read h.fido_crt h.stack_crt 4096).1),
               .lfs_file_close]
            else [])
        ++ [.lfs_file_open "/fido/sec/00".toList OPEN_FLAGS]
        ++ (if opened (gen_init_fs_main k E h 2).run.calls "/fido/sec/00".toList then
              [.lfs_file_write (host_read h.fido_key h.stack_key 4096).2
                  (size_of_int (host_read h.fido_key h.stack_key 4096).1),
               .lfs_file_close]
            else [])
        ++ [.lfs_mkdir "/trussed".toList, .lfs_mkdir "/trussed/dat".toList,
            .lfs_file_open "/trussed/dat/rng-state.bin".toList OPEN_FLAGS]
        ++ (if opened (gen_init_fs_main k E h 2).run.calls
                "/trussed/dat/rng-state.bin".toList then
              [.lfs_file_write rndbuf 32, .lfs_file_close]
            else [])
        ++ [.lfs_unmount] := by
  obtain ⟨r0, r1, r2, r3, r4, r5, w1, c1, r6, w2, c2, r7, r8, r9, w3, c3, r10, e⟩ :=
    builder_calls k E h hmap
  rw [e]
  have p1 : "/fido/x5c/00".toList ≠ "/fido/sec/00".toList := by decide
  have p2 : "/fido/x5c/00".toList ≠ "/trussed/dat/rng-state.bin".toList := by decide
  have p3 : "/fido/sec/00".toList ≠ "/trussed/dat/rng-state.bin".toList := by decide
  simp only [opened]
  generalize "/fido/x5c/00".toList = px at p1 p2 ⊢
  generalize "/fido/sec/00".toList = ps at p1 p3 ⊢
  generalize "/trussed/dat/rng-state.bin".toList = pr at p2 p3 ⊢
  generalize "/fido".toList = d1
  generalize "/fido/x5c".toList = d2
  generalize "/fido/sec".toList = d3
  generalize "/trussed".toList = d4
  generalize "/trussed/dat".toList = d5
  generalize host_read h.fido_crt h.stack_crt 4096 = rd1
  generalize host_read h.fido_key h.stack_key 4096 = rd2
  generalize rndbuf = rb
  by_cases h1 : r5 = 0 <;> by_cases h2 : r6 = 0 <;> by_cases h3 : r9 = 0 <;>
    simp [h1, h2, h3, p1, p2, p3, p1.symm, p2.symm, p3.symm, @eq_comm Int 0]

/-- An `int` that holds a natural number below `2^32` converts to itself. -/
theorem size_of_int_nat (n : Nat) (hn : n < 2 ^ 32) : size_of_int (n : Int) = n := by
  unfold size_of_int
  rw [Int.emod_eq_of_lt (Int.natCast_nonneg n) (by exact_mod_cast hn)]
  exact Int.toNat_ofNat n

/-- Reading an existing source. -/
theorem host_read_some (d buffer : List Byte) :
    host_read (some d) buffer 4096
      = (((min d.length 4096 : Nat) : Int),
          d.take 4096 ++ buffer.drop (min d.length 4096)) := rfl

/-- The first `min |d| 4096` bytes of the buffer after the read are the first
`min |d| 4096` bytes of the source. -/
theorem buffer_take (d rest : List Byte) :
    (d.take 4096 ++ rest).take (min d.length 4096) = d.take 4096 := by
  rw [List.take_append_of_le_length (by rw [List.length_take]; omega)]
  exact List.take_of_length_le (by rw [List.length_take]; omega)

/-- C4, amended: in every run that gets past the argument check and the
mapping, whatever statuses the engine returns, `lfs_format`, `lfs_mount`, the
five `lfs_mkdir`, the three `lfs_file_open` and `lfs_unmount` are all called in
source order; the `lfs_file_write` and `lfs_file_close` of a file are called
exactly when its `lfs_file_open` returned `0`; `main` returns `0`; and the
mapped region is written to the output file unless the exclusive create of the
output path fails. -/
theorem builder_never_aborts {σ : Type} (k : Consts) (E : BuilderEngine σ) (h : Host)
    (hmap : h.mmap_ok = true) :
    (gen_init_fs_main k E h 2).run.calls.map Prod.fst
      = [.lfs_format, .lfs_mount, .lfs_mkdir "/fido".toList, .lfs_mkdir "/fido/x5c".toList,
         .lfs_mkdir "/fido/sec".toList, .lfs_file_open "/fido/x5c/00".toList OPEN_FLAGS]
        ++ (if opened (gen_init_fs_main k E h 2).run.calls "/fido/x5c/00".toList then
              [.lfs_file_write (host_read h.fido_crt h.stack_crt 4096).2
                  (size_of_int (host_read h.fido_crt h.stack_crt 4096).1),
               .lfs_file_close]
            else [])
        ++ [.lfs_file_open "/fido/sec/00".toList OPEN_FLAGS]
        ++ (if opened (gen_init_fs_main k E h 2).run.calls "/fido/sec/00".toList then
              [.lfs_file_write (host_read h.fido_key h.stack_key 4096).2
                  (size_of_int (host_read h.fido_key h.stack_key 4096).1),
               .lfs_file_close]
            else [])
        ++ [.lfs_mkdir "/trussed".toList, .lfs_mkdir "/trussed/dat".toList,
            .lfs_file_open "/trussed/dat/rng-state.bin".toList OPEN_FLAGS]
        ++ (if opened (gen_init_fs_main k E h 2).run.calls
                "/trussed/dat/rng-state.bin".toList then
              [.lfs_file_write rndbuf 32, .lfs_file_close]
            else [])
        ++ [.lfs_unmount]
    ∧ (gen_init_fs_main k E h 2).exit_code = 0
    ∧ (gen_init_fs_main k E h 2).output
        = if h.out_fd < 0 then none
          else some ((gen_init_fs_main k E h 2).run.vol.fsmmap.take k.FILESYSTEM_SIZE) :=
  ⟨builder_call_sequence k E h hmap, builder_output k E h hmap⟩

/-- C8: when `./fido.crt` holds `crt` and `./fido.key` holds `key`, the only
`lfs_file_write` after the open of `/fido/x5c/00` (made exactly when that open
returned `0`) has length `min |crt| 4096` and a buffer whose first
`min |crt| 4096` bytes are the first `min |crt| 4096` bytes of `crt`; likewise
for `/fido/sec/00` and `key`. -/
theorem builder_write_lengths {σ : Type} (k : Consts) (E : BuilderEngine σ) (h : Host)
    (crt key : List Byte) (hmap : h.mmap_ok = true)
    (hcrt : h.fido_crt = some crt) (hkey : h.fido_key = some key) :
    (gen_init_fs_main k E h 2).run.calls.map Prod.fst
      = [.lfs_format, .lfs_mount, .lfs_mkdir "/fido".toList, .lfs_mkdir "/fido/x5c".toList,
         .lfs_mkdir "/fido/sec".toList, .lfs_file_open "/fido/x5c/00".toList OPEN_FLAGS]
        ++ (if opened (gen_init_fs_main k E h 2).run.calls "/fido/x5c/00".toList then
              [.lfs_file_write (crt.take 4096 ++ h.stack_crt.drop (min crt.length 4096))
                  (min crt.length 4096),
               .lfs_file_close]
            else [])
        ++ [.lfs_file_open "/fido/sec/00".toList OPEN_FLAGS]
        ++ (if opened (gen_init_fs_main k E h 2).run.calls "/fido/sec/00".toList then
              [.lfs_file_write (key.take 4096 ++ h.stack_key.drop (min key.length 4096))
                  (min key.length 4096),
               .lfs_file_close]
            else [])
        ++ [.lfs_mkdir "/trussed".toList, .lfs_mkdir "/trussed/dat".toList,
            .lfs_file_open "/trussed/dat/rng-state.bin".toList OPEN_FLAGS]
        ++ (if opened (gen_init_fs_main k E h 2).run.calls
                "/trussed/dat/rng-state.bin".toList then
              [.lfs_file_write rndbuf 32, .lfs_file_close]
            else [])
        ++ [.lfs_unmount]
    ∧ (crt.take 4096 ++ h.stack_crt.drop (min crt.length 4096)).take (min crt.length 4096)
        = crt.take 4096
    ∧ (crt.take 4096).length = min crt.length 4096
    ∧ (key.take 4096 ++ h.stack_key.drop (min key.length 4096)).take (min key.length 4096)
        = key.take 4096
    ∧ (key.take 4096).length = min key.length 4096 := by
  have hs := builder_call_sequence k E h hmap
  rw [hcrt, hkey, host_read_some, host_read_some] at hs
  simp only [] at hs
  rw [size_of_int_nat _ (by omega), size_of_int_nat _ (by omega)] at hs
  refine ⟨hs, buffer_take crt _, ?_, buffer_take key _, ?_⟩
  · rw [List.length_take]; omega
  · rw [List.length_take]; omega

/-- C4 fails as stated: with an engine in which every call fails, `main`
still makes all eleven calls of the sequence after the failed `lfs_format` and
writes the image. -/
theorem builder_continues_after_failure :
    (gen_init_fs_main demo_consts failing_engine demo_host 2).run.calls
        = [(.lfs_format, -5), (.lfs_mount, -5), (.lfs_mkdir "/fido".toList, -5),
           (.lfs_mkdir "/fido/x5c".toList, -5), (.lfs_mkdir "/fido/sec".toList, -5),
           (.lfs_file_open "/fido/x5c/00".toList OPEN_FLAGS, -5),
           (.lfs_file_open "/fido/sec/00".toList OPEN_FLAGS, -5),
           (.lfs_mkdir "/trussed".toList, -5), (.lfs_mkdir "/trussed/dat".toList, -5),
           (.lfs_file_open "/trussed/dat/rng-state.bin".toList OPEN_FLAGS, -5),
           (.lfs_unmount, -5)]
      ∧ (gen_init_fs_main demo_consts failing_engine demo_host 2).output
          = some (List.replicate 32 0xff)
      ∧ ¬ AbortsOnFailure (gen_init_fs_main demo_consts failing_engine demo_host 2).run.calls
            (gen_init_fs_main demo_consts failing_engine demo_host 2).output := by
  refine ⟨by decide, by decide, fun hA => ?_⟩
  have := hA 0 .lfs_format (-5) (by decide) (by decide)
  exact absurd this.1 (by decide)


/-- Witness of the amended C4: with an engine in which every call succeeds
`main` returns `0` and writes the mapped region to the output file. -/
theorem builder_never_aborts_witness :
    demo_host.mmap_ok = true
      ∧ (gen_init_fs_main demo_consts ok_engine demo_host 2).exit_code = 0
      ∧ (gen_init_fs_main demo_consts ok_engine demo_host 2).output
          = if demo_host.out_fd < 0 then none
            else some ((gen_init_fs_main demo_consts ok_engine demo_host 2).run.vol.fsmmap.take
              demo_consts.FILESYSTEM_SIZE) :=
  ⟨by decide, (builder_never_aborts demo_consts ok_engine demo_host (by decide)).2⟩

/-- Witness of C8: a certificate of three bytes and a key of two bytes. -/
theorem builder_write_lengths_witness :
    (demo_host.mmap_ok = true
      ∧ demo_host.fido_crt = some [0x30, 0x82, 0x01]
      ∧ demo_host.fido_key = some [0x30, 0x77])
      ∧ (([0x30, 0x82, 0x01] : List Byte).take 4096
            ++ demo_host.stack_crt.drop (min ([0x30, 0x82, 0x01] : List Byte).length 4096)).take
          (min ([0x30, 0x82, 0x01] : List Byte).length 4096)
          = ([0x30, 0x82, 0x01] : List Byte).take 4096 :=
  ⟨⟨by decide, by decide, by decide⟩,
    (builder_write_lengths demo_consts ok_engine demo_host [0x30, 0x82, 0x01] [0x30, 0x77]
      (by decide) (by decide) (by decide)).2.1⟩

/-! ## Properties of the inspector -/

/-- A path shorter than `LFS_NAME_MAX` is stored whole by `snprintf`. -/
theorem snprintf_path_fits (name_max : Nat) (dn name : List Char)
    (h : (dn ++ '/' :: name).length < name_max) :
    snprintf_path name_max dn name = dn ++ '/' :: name :=
  List.take_of_length_le (by omega)

/-- One iteration of the loop on an entry of type `LFS_TYPE_DIR` named `.` or
`..`: nothing is printed, nothing is entered. -/
theorem dir_loop_dot {δ : Type} (E : InspectorEngine δ)
    (self : Nat → List Char → List (List Char) → Outcome × List (List Char))
    (depth : Nat) (dn : List Char) (n : Nat) (ldir : δ) (out : List (List Char))
    (hr : 0 < (E.lfs_dir_read ldir).1)
    (hd : is_dot_entry (E.lfs_dir_read ldir).2.1 = true) :
    dir_loop E self depth dn (n + 1) ldir out
      = dir_loop E self depth dn n (E.lfs_dir_read ldir).2.2 out := by
  rw [dir_loop]
  simp only [hd, if_true]
  rw [if_neg (by omega), if_neg (by omega)]

/-- One iteration of the loop on an entry that is not of type `LFS_TYPE_DIR`:
its line is printed, nothing is entered. -/
theorem dir_loop_nondir {δ : Type} (E : InspectorEngine δ)
    (self : Nat → List Char → List (List Char) → Outcome × List (List Char))
    (depth : Nat) (dn : List Char) (n : Nat) (ldir : δ) (out : List (List Char))
    (hr : 0 < (E.lfs_dir_read ldir).1)
    (ht : (E.lfs_dir_read ldir).2.1.type ≠ LFS_TYPE_DIR) :
    dir_loop E self depth dn (n + 1) ldir out
      = dir_loop E self depth dn n (E.lfs_dir_read ldir).2.2
          (out ++ [entry_line depth (E.lfs_dir_read ldir).2.1]) := by
  have hd : is_dot_entry (E.lfs_dir_read ldir).2.1 = false := by
    simp [is_dot_entry, ht]
  rw [dir_loop]
  simp only [hd, ht, if_false]
  rw [if_neg (by omega), if_neg (by omega)]
  simp

/-- One iteration of the loop on a real directory: its line is printed and
`self` is called on the path `snprintf` built. -/
theorem dir_loop_dir {δ : Type} (E : InspectorEngine δ)
    (self : Nat → List Char → List (List Char) → Outcome × List (List Char))
    (depth : Nat) (dn : List Char) (n : Nat) (ldir : δ) (out : List (List Char))
    (hr : 0 < (E.lfs_dir_read ldir).1)
    (ht : (E.lfs_dir_read ldir).2.1.type = LFS_TYPE_DIR)
    (hd : is_dot_entry (E.lfs_dir_read ldir).2.1 = false) :
    dir_loop E self depth dn (n + 1) ldir out
      = match self (depth + 1)
            (snprintf_path E.LFS_NAME_MAX dn (E.lfs_dir_read ldir).2.1.name)
            (out ++ [entry_line depth (E.lfs_dir_read ldir).2.1]) with
        | (.returned, out2) => dir_loop E self depth dn n (E.lfs_dir_read ldir).2.2 out2
        | (oc, out2) => (oc, (E.lfs_dir_read ldir).2.2, out2) := by
  rw [dir_loop]
  simp only [hd, ht, if_true]
  rw [if_neg (by omega), if_neg (by omega)]
  simp


/-- The name of a `dots` entry passes the test of line 27. -/
theorem is_dot_entry_dots (linfo : lfs_info) (parent : Bool)
    (ht : linfo.type = LFS_TYPE_DIR) (hn : linfo.name = dots_name parent) :
    is_dot_entry linfo = true := by
  cases parent <;> simp [is_dot_entry, ht, hn, dots_name]

/-- The loop of `recurse` on a directory whose listing is `t`: with enough
fuel it returns, having appended the lines of the pre-order enumeration of `t`,
and leaves a handle that closes successfully. -/
theorem dir_loop_lists {δ : Type} (E : InspectorEngine δ) (t : Listing) :
    ∀ (n m depth : Nat) (parent dn : List Char) (ldir : δ) (out : List (List Char)),
      t.weight ≤ n → t.weight ≤ m → Lists E dn ldir t →
      ∃ ldir2,
        dir_loop E (fun d p o => recurse E m d p o) depth dn n ldir out
          = (.returned, ldir2, out ++ (preorder depth parent t).map visit_line)
        ∧ E.lfs_dir_close ldir2 = LFS_ERR_OK := by
  induction t with
  | done =>
    intro n m depth parent dn ldir out hn _ hL
    obtain ⟨n, rfl⟩ : ∃ k, n = k + 1 := ⟨n - 1, by simp [Listing.weight] at hn; omega⟩
    simp only [Lists] at hL
    refine ⟨(E.lfs_dir_read ldir).2.2, ?_, hL.2⟩
    rw [dir_loop]
    simp [hL.1, preorder]
  | dots p rest ih =>
    intro n m depth parent dn ldir out hn hm hL
    obtain ⟨n, rfl⟩ : ∃ k, n = k + 1 := ⟨n - 1, by simp [Listing.weight] at hn; omega⟩
    simp only [Lists] at hL
    obtain ⟨hr, ht, hname, hrest⟩ := hL
    simp only [Listing.weight] at hn hm
    rw [dir_loop_dot E _ depth dn n ldir out hr (is_dot_entry_dots _ p ht hname)]
    simpa only [preorder] using
      ih n m depth parent dn _ out (by omega) (by omega) hrest
  | file name size rest ih =>
    intro n m depth parent dn ldir out hn hm hL
    obtain ⟨n, rfl⟩ : ∃ k, n = k + 1 := ⟨n - 1, by simp [Listing.weight] at hn; omega⟩
    simp only [Lists] at hL
    obtain ⟨hr, hinfo, _, _, hrest⟩ := hL
    simp only [Listing.weight] at hn hm
    rw [dir_loop_nondir E _ depth dn n ldir out hr
      (by rw [hinfo]; simp [LFS_TYPE_REG, LFS_TYPE_DIR])]
    obtain ⟨l2, h2, hc⟩ := ih n m depth parent dn _
      (out ++ [entry_line depth (E.lfs_dir_read ldir).2.1]) (by omega) (by omega) hrest
    refine ⟨l2, ?_, hc⟩
    rw [h2, hinfo]
    simp [preorder, visit_line]
  | dir name size sub rest ihs ihr =>
    intro n m depth parent dn ldir out hn hm hL
    obtain ⟨n, rfl⟩ : ∃ k, n = k + 1 := ⟨n - 1, by simp [Listing.weight] at hn; omega⟩
    obtain ⟨m, rfl⟩ : ∃ k, m = k + 1 := ⟨m - 1, by simp [Listing.weight] at hm; omega⟩
    simp only [Lists] at hL
    obtain ⟨hr, hinfo, hn1, hn2, hlen, hopen, hsub, hrest⟩ := hL
    simp only [Listing.weight] at hn hm
    have hd : is_dot_entry (E.lfs_dir_read ldir).2.1 = false := by
      rw [hinfo]; simp only [is_dot_entry, decide_eq_false_iff_not, not_and, not_or]
      exact fun _ => ⟨hn1, hn2⟩
    rw [dir_loop_dir E _ depth dn n ldir out hr (by rw [hinfo]) hd]
    have hname : (E.lfs_dir_read ldir).2.1.name = name := by rw [hinfo]
    rw [hname, snprintf_path_fits _ _ _ hlen]
    obtain ⟨l1, h1, hc1⟩ := ihs m m (depth + 1) (parent ++ '/' :: name) (dn ++ '/' :: name)
      (E.lfs_dir_open (dn ++ '/' :: name)).2
      (out ++ [entry_line depth (E.lfs_dir_read ldir).2.1]) (by omega) (by omega) hsub
    have hrec : recurse E (m + 1) (depth + 1) (dn ++ '/' :: name)
        (out ++ [entry_line depth (E.lfs_dir_read ldir).2.1])
        = (.returned, out ++ [entry_line depth (E.lfs_dir_read ldir).2.1]
            ++ (preorder (depth + 1) (parent ++ '/' :: name) sub).map visit_line) := by
      rw [recurse]
      simp [hopen, h1, hc1]
    simp only [hrec]
    obtain ⟨l2, h2, hc2⟩ := ihr n (m + 1) depth parent dn _
      (out ++ [entry_line depth (E.lfs_dir_read ldir).2.1]
        ++ (preorder (depth + 1) (parent ++ '/' :: name) sub).map visit_line)
      (by omega) (by omega) hrest
    refine ⟨l2, ?_, hc2⟩
    rw [h2, hinfo]
    simp [preorder, visit_line]

/-- The enumeration has one visit for each file and directory of the tree. -/
theorem preorder_length (t : Listing) :
    ∀ (depth : Nat) (parent : List Char), (preorder depth parent t).length = t.count := by
  induction t with
  | done => intro _ _; rfl
  | dots p rest ih => intro d q; simpa [preorder, Listing.count] using ih d q
  | file name size rest ih =>
    intro d q
    simp [preorder, Listing.count, ih d q]; omega
  | dir name size sub rest ihs ihr =>
    intro d q
    simp [preorder, Listing.count, ihs, ihr]; omega


/-- The character of a digit below sixteen reads back as that digit. -/
theorem hex_digit_digitChar (m : Nat) (hm : m < 16) : hex_digit (Nat.digitChar m) = m := by
  interval_cases m <;> decide

/-- Reading digits followed by one more digit. -/
theorem hex_value_snoc (xs : List Char) (c : Char) :
    hex_value (xs ++ [c]) = 16 * hex_value xs + hex_digit c := by
  simp [hex_value, List.foldl_append]

/-- The digits `Nat.toDigitsCore` puts in front of `ds` are hexadecimal digits
whose value is `n`. -/
theorem toDigitsCore_reads (fuel : Nat) :
    ∀ (n : Nat) (ds : List Char), n < fuel →
      ∃ xs, Nat.toDigitsCore 16 fuel n ds = xs ++ ds
        ∧ 0 < xs.length ∧ (∀ c ∈ xs, hex_digit c < 16) ∧ hex_value xs = n := by
  induction fuel with
  | zero => intro n ds h; omega
  | succ fuel ih =>
    intro n ds h
    have hd : hex_digit (Nat.digitChar (n % 16)) = n % 16 :=
      hex_digit_digitChar _ (Nat.mod_lt _ (by norm_num))
    by_cases h0 : n / 16 = 0
    · refine ⟨[Nat.digitChar (n % 16)], ?_, by simp, ?_, ?_⟩
      · simp [Nat.toDigitsCore, h0]
      · intro c hc
        rw [List.mem_singleton] at hc
        rw [hc, hd]
        exact Nat.mod_lt _ (by norm_num)
      · have : hex_value [Nat.digitChar (n % 16)] = hex_digit (Nat.digitChar (n % 16)) := by
          simp [hex_value]
        rw [this, hd]
        omega
    · obtain ⟨xs, e, _, hall, hv⟩ := ih (n / 16) (Nat.digitChar (n % 16) :: ds) (by omega)
      refine ⟨xs ++ [Nat.digitChar (n % 16)], ?_, by simp, ?_, ?_⟩
      · simp [Nat.toDigitsCore, h0, e]
      · intro c hc
        rcases List.mem_append.1 hc with hc | hc
        · exact hall c hc
        · rw [List.mem_singleton] at hc
          rw [hc, hd]
          exact Nat.mod_lt _ (by norm_num)
      · rw [hex_value_snoc, hv, hd]
        omega

/-- Leading zeros do not change the value read. -/
theorem hex_value_zeros (k : Nat) (xs : List Char) :
    hex_value (List.replicate k '0' ++ xs) = hex_value xs := by
  induction k with
  | zero => rfl
  | succ k ih =>
    have h0 : hex_digit '0' = 0 := by decide
    simp only [hex_value, List.replicate_succ, List.cons_append, List.foldl_cons, h0] at ih ⊢
    exact ih

/-- The field printed by `%06x` has at least six hexadecimal digits whose
value is the argument as an `lfs_size_t`. -/
theorem fmt_06x_reads (n : Nat) :
    6 ≤ (fmt_06x n).length ∧ (∀ c ∈ fmt_06x n, hex_digit c < 16)
      ∧ hex_value (fmt_06x n) = n % 2 ^ 32 := by
  obtain ⟨xs, e, _, hall, hv⟩ := toDigitsCore_reads (u32 n + 1) (u32 n) [] (by omega)
  have hx : Nat.toDigits 16 (u32 n) = xs := by
    rw [Nat.toDigits, e, List.append_nil]
  unfold fmt_06x
  simp only [hx]
  refine ⟨?_, ?_, ?_⟩
  · rw [List.length_append, List.length_replicate]; omega
  · intro c hc
    rcases List.mem_append.1 hc with hc | hc
    · rw [(List.mem_replicate.1 hc).2]; decide
    · exact hall c hc
  · rw [hex_value_zeros, hv]; rfl

/-- The line the code prints for an entry is a listing of that entry. -/
theorem entry_line_shows (depth : Nat) (path : List Char) (linfo : lfs_info) :
    Shows (entry_line depth linfo) { depth := depth, path := path, info := linfo } := by
  obtain ⟨h6, hall, hv⟩ :=
    fmt_06x_reads (if linfo.type = LFS_TYPE_REG then linfo.size else 0)
  refine ⟨fmt_06x (if linfo.type = LFS_TYPE_REG then linfo.size else 0), ?_, h6, hall, ?_⟩
  · have hb : "         ".toList.take (depth * 2) = List.replicate (min (2 * depth) 9) ' ' := by
      have h9 : "         ".toList = List.replicate 9 ' ' := by decide
      rw [h9, List.take_replicate, Nat.mul_comm]
    unfold entry_line
    rw [hb]
    simp
  · rw [hv]
    split <;> simp

/-- The lines of the visits of an enumeration are listings of these visits,
one for one and in order. -/
theorem visit_lines_show (vs : List Visit) : List.Forall₂ Shows (vs.map visit_line) vs := by
  induction vs with
  | nil => exact List.Forall₂.nil
  | cons v vs ih => exact List.Forall₂.cons (entry_line_shows v.depth v.path v.info) ih

/-- When the engine presents `t` under `/`, `recurse(0, "/")` returns with the
lines of the enumeration of `t` appended to standard output. -/
theorem recurse_presented {δ : Type} (E : InspectorEngine δ) (t : Listing)
    (hP : Presents E "/".toList t) (fuel : Nat) (out : List (List Char))
    (hf : t.weight < fuel) :
    recurse E fuel 0 "/".toList out
      = (.returned, out ++ (preorder 0 [] t).map visit_line) := by
  obtain ⟨fuel, rfl⟩ : ∃ k, fuel = k + 1 := ⟨fuel - 1, by omega⟩
  obtain ⟨l, h1, hc⟩ := dir_loop_lists E t fuel fuel 0 [] "/".toList
    (E.lfs_dir_open "/".toList).2 out (by omega) (by omega) hP.2
  simp only [recurse, hP.1, h1, hc, ne_eq, not_true_eq_false, if_false]

/-- The tree the image builder creates when none of its calls fails: the
directories and files of its calls in the order of their creation, the two
blobs with the lengths passed to `lfs_file_write`. -/
theorem volume_after_builder {σ : Type} (k : Consts) (B : BuilderEngine σ) (h : Host)
    (hmap : h.mmap_ok = true) (hc : Clean (gen_init_fs_main k B h 2).run.calls) :
    volume_after (gen_init_fs_main k B h 2).run.calls
      = builder_tree (size_of_int (host_read h.fido_crt h.stack_crt 4096).1)
          (size_of_int (host_read h.fido_key h.stack_key 4096).1) := by
  obtain ⟨r0, r1, r2, r3, r4, r5, w1, c1, r6, w2, c2, r7, r8, r9, w3, c3, r10, e⟩ :=
    builder_calls k B h hmap
  rw [e] at hc ⊢
  generalize size_of_int (host_read h.fido_crt h.stack_crt 4096).1 = s1 at hc ⊢
  generalize size_of_int (host_read h.fido_key h.stack_key 4096).1 = s2 at hc ⊢
  generalize (host_read h.fido_crt h.stack_crt 4096).2 = b1 at hc ⊢
  generalize (host_read h.fido_key h.stack_key 4096).2 = b2 at hc ⊢
  have h0 : r0 = 0 := by simpa [clean_call] using hc (.lfs_format, r0) (by simp)
  have h1 : r1 = 0 := by simpa [clean_call] using hc (.lfs_mount, r1) (by simp)
  have h2 : r2 = 0 := by
    simpa [clean_call] using hc (.lfs_mkdir "/fido".toList, r2) (by simp)
  have h3 : r3 = 0 := by
    simpa [clean_call] using hc (.lfs_mkdir "/fido/x5c".toList, r3) (by simp)
  have h4 : r4 = 0 := by
    simpa [clean_call] using hc (.lfs_mkdir "/fido/sec".toList, r4) (by simp)
  have h5 : r5 = 0 := by
    simpa [clean_call] using
      hc (.lfs_file_open "/fido/x5c/00".toList OPEN_FLAGS, r5) (by simp)
  have h6 : r6 = 0 := by
    simpa [clean_call] using
      hc (.lfs_file_open "/fido/sec/00".toList OPEN_FLAGS, r6) (by simp)
  have h7 : r7 = 0 := by
    simpa [clean_call] using hc (.lfs_mkdir "/trussed".toList, r7) (by simp)
  have h8 : r8 = 0 := by
    simpa [clean_call] using hc (.lfs_mkdir "/trussed/dat".toList, r8) (by simp)
  have h9 : r9 = 0 := by
    simpa [clean_call] using
      hc (.lfs_file_open "/trussed/dat/rng-state.bin".toList OPEN_FLAGS, r9) (by simp)
  have h10 : r10 = 0 := by simpa [clean_call] using hc (.lfs_unmount, r10) (by simp)
  subst h0 h1 h2 h3 h4 h5 h6 h7 h8 h9 h10
  simp only [if_true, List.cons_append, List.nil_append] at hc ⊢
  have hw1 : ¬ w1 < 0 := by
    simpa [clean_call] using hc (.lfs_file_write b1 s1, w1) (by simp)
  have hw2 : ¬ w2 < 0 := by
    simpa [clean_call] using hc (.lfs_file_write b2 s2, w2) (by simp)
  have hw3 : ¬ w3 < 0 := by
    simpa [clean_call] using hc (.lfs_file_write rndbuf 32, w3) (by simp)
  have hd1 : c1 = 0 := by simpa [clean_call] using hc (.lfs_file_close, c1) (by simp)
  have hd2 : c2 = 0 := by simpa [clean_call] using hc (.lfs_file_close, c2) (by simp)
  have hd3 : c3 = 0 := by simpa [clean_call] using hc (.lfs_file_close, c3) (by simp)
  subst hd1 hd2 hd3
  clear hc e
  simp only [volume_after, List.foldl_cons, List.foldl_nil, fs_step, hw1, hw2, hw3,
    lt_self_iff_false, if_false]
  have q : ∀ n : Nat, builder_tree (0 + s1) (0 + s2) = builder_tree s1 s2 := by
    intro _; rw [Nat.zero_add, Nat.zero_add]
  rw [← q 0]
  rfl

/-- The lines of the enumeration of the tree of the builder. -/
theorem builder_tree_lines (s1 s2 : Nat) :
    (preorder 0 [] (builder_tree s1 s2)).map visit_line
      = ["+ d 000000 fido".toList, "  + d 000000 x5c".toList,
         "    + f ".toList ++ fmt_06x s1 ++ " 00".toList,
         "  + d 000000 sec".toList,
         "    + f ".toList ++ fmt_06x s2 ++ " 00".toList,
         "+ d 000000 trussed".toList, "  + d 000000 dat".toList,
         "    + f 000020 rng-state.bin".toList] := by
  have e1 : entry_line 2 { type := LFS_TYPE_REG, size := s1, name := "00".toList }
      = "    + f ".toList ++ fmt_06x s1 ++ " 00".toList := by
    simp [entry_line, LFS_TYPE_REG]
  have e2 : entry_line 2 { type := LFS_TYPE_REG, size := s2, name := "00".toList }
      = "    + f ".toList ++ fmt_06x s2 ++ " 00".toList := by
    simp [entry_line, LFS_TYPE_REG]
  simp only [builder_tree, with_dots, preorder, List.map_cons, List.map_nil, List.map_append,
    visit_line, e1, e2, List.cons_append, List.nil_append, List.append_nil]
  rfl

/-- The enumeration of the tree of the builder. -/
theorem builder_tree_visits (s1 s2 : Nat) :
    preorder 0 [] (builder_tree s1 s2)
      = [{ depth := 0, path := "/fido".toList,
           info := { type := LFS_TYPE_DIR, size := 0, name := "fido".toList } },
         { depth := 1, path := "/fido/x5c".toList,
           info := { type := LFS_TYPE_DIR, size := 0, name := "x5c".toList } },
         { depth := 2, path := "/fido/x5c/00".toList,
           info := { type := LFS_TYPE_REG, size := s1, name := "00".toList } },
         { depth := 1, path := "/fido/sec".toList,
           info := { type := LFS_TYPE_DIR, size := 0, name := "sec".toList } },
         { depth := 2, path := "/fido/sec/00".toList,
           info := { type := LFS_TYPE_REG, size := s2, name := "00".toList } },
         { depth := 0, path := "/trussed".toList,
           info := { type := LFS_TYPE_DIR, size := 0, name := "trussed".toList } },
         { depth := 1, path := "/trussed/dat".toList,
           info := { type := LFS_TYPE_DIR, size := 0, name := "dat".toList } },
         { depth := 2, path := "/trussed/dat/rng-state.bin".toList,
           info := { type := LFS_TYPE_REG, size := 32, name := "rng-state.bin".toList } }] :=
  rfl

/-- C5: when the engine presents a finite tree `t` under `/` (every engine call
succeeds, no file or directory is named `.` or `..`, and every directory path
the inspector builds is shorter than `LFS_NAME_MAX`), `recurse(0, "/")` returns
for every fuel above the weight of `t`, and the lines it printed are, one for
one and in order, listings of the entries of the depth-first pre-order
enumeration of `t`, the children of each directory in the order `lfs_dir_read`
yields them and `.` and `..` left out: each line carries the name, the kind and
the size of its entry after the indentation of its depth; there is one line,
and the enumeration has one entry, for each file and directory of the tree.
For the tree the image builder creates (the volume after the calls of a run of
`main` in which no call failed, directories listing their entries in the order
of creation), the enumeration is `/fido`, `/fido/x5c`, `/fido/x5c/00`,
`/fido/sec`, `/fido/sec/00`, `/trussed`, `/trussed/dat`,
`/trussed/dat/rng-state.bin`, the two blobs with the lengths passed to
`lfs_file_write`, and on every engine that presents this tree `recurse(0, "/")`
prints exactly the eight lines of these entries. -/
theorem recurse_is_preorder {δ : Type} (E : InspectorEngine δ) (t : Listing)
    (hP : Presents E "/".toList t) :
    (∀ fuel out, t.weight < fuel →
        ∃ printed,
          recurse E fuel 0 "/".toList out = (.returned, out ++ printed)
            ∧ List.Forall₂ Shows printed (preorder 0 [] t)
            ∧ printed.length = t.count)
      ∧ (preorder 0 [] t).length = t.count
      ∧ ∀ (σ : Type) (B : BuilderEngine σ) (k : Consts) (h : Host),
          h.mmap_ok = true → Clean (gen_init_fs_main k B h 2).run.calls →
          preorder 0 [] (volume_after (gen_init_fs_main k B h 2).run.calls)
              = [{ depth := 0, path := "/fido".toList,
                   info := { type := LFS_TYPE_DIR, size := 0, name := "fido".toList } },
                 { depth := 1, path := "/fido/x5c".toList,
                   info := { type := LFS_TYPE_DIR, size := 0, name := "x5c".toList } },
                 { depth := 2, path := "/fido/x5c/00".toList,
                   info := { type := LFS_TYPE_REG,
                             size := size_of_int (host_read h.fido_crt h.stack_crt 4096).1,
                             name := "00".toList } },
                 { depth := 1, path := "/fido/sec".toList,
                   info := { type := LFS_TYPE_DIR, size := 0, name := "sec".toList } },
                 { depth := 2, path := "/fido/sec/00".toList,
                   info := { type := LFS_TYPE_REG,
                             size := size_of_int (host_read h.fido_key h.stack_key 4096).1,
                             name := "00".toList } },
                 { depth := 0, path := "/trussed".toList,
                   info := { type := LFS_TYPE_DIR, size := 0, name := "trussed".toList } },
                 { depth := 1, path := "/trussed/dat".toList,
                   info := { type := LFS_TYPE_DIR, size := 0, name := "dat".toList } },
                 { depth := 2, path := "/trussed/dat/rng-state.bin".toList,
                   info := { type := LFS_TYPE_REG, size := 32,
                             name := "rng-state.bin".toList } }]
            ∧ ∀ (δ2 : Type) (E2 : InspectorEngine δ2),
                Presents E2 "/".toList (volume_after (gen_init_fs_main k B h 2).run.calls) →
                ∀ fuel out, 26 < fuel →
                  recurse E2 fuel 0 "/".toList out
                    = (.returned, out ++
                        ["+ d 000000 fido".toList, "  + d 000000 x5c".toList,
                         "    + f ".toList
                           ++ fmt_06x (size_of_int (host_read h.fido_crt h.stack_crt 4096).1)
                           ++ " 00".toList,
                         "  + d 000000 sec".toList,
                         "    + f ".toList
                           ++ fmt_06x (size_of_int (host_read h.fido_key h.stack_key 4096).1)
                           ++ " 00".toList,
                         "+ d 000000 trussed".toList, "  + d 000000 dat".toList,
                         "    + f 000020 rng-state.bin".toList]) := by
  refine ⟨fun fuel out hf => ⟨_, recurse_presented E t hP fuel out hf, visit_lines_show _,
      by rw [List.length_map, preorder_length]⟩, preorder_length t 0 [], ?_⟩
  intro σ B k h hmap hc
  rw [volume_after_builder k B h hmap hc]
  refine ⟨builder_tree_visits _ _, fun δ2 E2 hP2 fuel out hf => ?_⟩
  rw [recurse_presented E2 _ hP2 fuel out (lt_of_le_of_lt (le_of_eq rfl) hf),
    builder_tree_lines]

/-- Witness of C5: the calls of the builder on its stand-in for littlefs all
succeed; the stand-in used with the inspector presents, under `/`, the tree
they leave; `recurse(0, "/")` prints listings of its eight entries in
pre-order, which are the eight lines of the statement. -/
theorem recurse_is_preorder_witness :
    (Presents (listing_engine 255
        (volume_after (gen_init_fs_main demo_consts fs_engine demo_host 2).run.calls))
        "/".toList (volume_after (gen_init_fs_main demo_consts fs_engine demo_host 2).run.calls)
      ∧ demo_host.mmap_ok = true
      ∧ Clean (gen_init_fs_main demo_consts fs_engine demo_host 2).run.calls)
      ∧ (∃ printed,
          recurse (listing_engine 255
              (volume_after (gen_init_fs_main demo_consts fs_engine demo_host 2).run.calls))
              27 0 "/".toList [] = (.returned, [] ++ printed)
            ∧ List.Forall₂ Shows printed
                (preorder 0 []
                  (volume_after (gen_init_fs_main demo_consts fs_engine demo_host 2).run.calls))
            ∧ printed.length
                = (volume_after
                    (gen_init_fs_main demo_consts fs_engine demo_host 2).run.calls).count)
      ∧ recurse (listing_engine 255
            (volume_after (gen_init_fs_main demo_consts fs_engine demo_host 2).run.calls))
            27 0 "/".toList []
          = (.returned, [] ++
              ["+ d 000000 fido".toList, "  + d 000000 x5c".toList,
               "    + f ".toList
                 ++ fmt_06x (size_of_int (host_read demo_host.fido_crt demo_host.stack_crt 4096).1)
                 ++ " 00".toList,
               "  + d 000000 sec".toList,
               "    + f ".toList
                 ++ fmt_06x (size_of_int (host_read demo_host.fido_key demo_host.stack_key 4096).1)
                 ++ " 00".toList,
               "+ d 000000 trussed".toList, "  + d 000000 dat".toList,
               "    + f 000020 rng-state.bin".toList]) :=
  have hP : Presents (listing_engine 255
      (volume_after (gen_init_fs_main demo_consts fs_engine demo_host 2).run.calls))
      "/".toList (volume_after (gen_init_fs_main demo_consts fs_engine demo_host 2).run.calls) := by
    decide
  have hC : Clean (gen_init_fs_main demo_consts fs_engine demo_host 2).run.calls := by
    unfold Clean; decide
  ⟨⟨hP, by decide, hC⟩, (recurse_is_preorder _ _ hP).1 27 [] (by decide),
    ((recurse_is_preorder _ _ hP).2.2 Fs fs_engine demo_consts demo_host (by decide) hC).2
      Listing _ hP 27 [] (by decide)⟩

/-- C6 fails as stated: an entry named `.` whose type is `LFS_TYPE_REG` is
printed. -/
theorem dot_file_is_printed :
    recurse (listing_engine 255 dot_file_tree) 10 0 "/".toList []
      = (.returned, ["+ f 000007 .".toList]) := by
  decide

/-- C6, amended: an entry that `lfs_dir_read` yields with the name `.` or `..`
and the type `LFS_TYPE_DIR` makes the loop go on to the next read with nothing
printed and no recursive call; an entry with such a name and another type is
printed like any other entry and not entered. -/
theorem dot_dirs_are_skipped {δ : Type} (E : InspectorEngine δ)
    (self : Nat → List Char → List (List Char) → Outcome × List (List Char))
    (depth : Nat) (dn : List Char) (n : Nat) (ldir : δ) (out : List (List Char))
    (hr : 0 < (E.lfs_dir_read ldir).1)
    (hname : (E.lfs_dir_read ldir).2.1.name = ".".toList
      ∨ (E.lfs_dir_read ldir).2.1.name = "..".toList) :
    ((E.lfs_dir_read ldir).2.1.type = LFS_TYPE_DIR →
        dir_loop E self depth dn (n + 1) ldir out
          = dir_loop E self depth dn n (E.lfs_dir_read ldir).2.2 out)
      ∧ ((E.lfs_dir_read ldir).2.1.type ≠ LFS_TYPE_DIR →
        dir_loop E self depth dn (n + 1) ldir out
          = dir_loop E self depth dn n (E.lfs_dir_read ldir).2.2
              (out ++ [entry_line depth (E.lfs_dir_read ldir).2.1])) := by
  refine ⟨fun ht => dir_loop_dot E self depth dn n ldir out hr ?_,
    fun ht => dir_loop_nondir E self depth dn n ldir out hr ht⟩
  simp only [is_dot_entry, decide_eq_true_eq]
  exact ⟨ht, hname⟩

/-- Witness of the amended C6 on the first entry of the root of the tree of the
image builder. -/
theorem dot_dirs_are_skipped_witness :
    (0 < ((listing_engine 255 (builder_tree 3 2)).lfs_dir_read (builder_tree 3 2)).1
      ∧ (((listing_engine 255 (builder_tree 3 2)).lfs_dir_read (builder_tree 3 2)).2.1.name
            = ".".toList
          ∨ ((listing_engine 255 (builder_tree 3 2)).lfs_dir_read (builder_tree 3 2)).2.1.name
            = "..".toList))
      ∧ dir_loop (listing_engine 255 (builder_tree 3 2)) (fun _ _ o => (.returned, o)) 0
            "/".toList (9 + 1) (builder_tree 3 2) []
          = dir_loop (listing_engine 255 (builder_tree 3 2)) (fun _ _ o => (.returned, o)) 0
            "/".toList 9
            ((listing_engine 255 (builder_tree 3 2)).lfs_dir_read (builder_tree 3 2)).2.2 [] :=
  ⟨⟨by decide, by decide⟩,
    (dot_dirs_are_skipped (listing_engine 255 (builder_tree 3 2)) (fun _ _ o => (.returned, o)) 0
      "/".toList 9 (builder_tree 3 2) [] (by decide) (by decide)).1 (by decide)⟩

set_option maxRecDepth 20000 in
/-- C7 fails as stated: with `LFS_NAME_MAX = 255`, for the directory of the
root whose name has 253 characters the path `snprintf` stores is not
`dn/name`; the inspector opens the path cut to 254 characters, which does not
exist, and exits. -/
theorem long_path_is_cut :
    snprintf_path 255 "/".toList (List.replicate 253 'a')
        ≠ "/".toList ++ '/' :: List.replicate 253 'a'
      ∧ recurse (listing_engine 255 long_name_tree) 10 0 "/".toList []
        = (.exited 1,
            ["+ d 000000 ".toList ++ List.replicate 253 'a',
             "dirO //".toList ++ List.replicate 252 'a' ++ " -2".toList]) := by
  constructor <;> decide

/-- C7, amended: for an entry of type `LFS_TYPE_DIR` not named `.` or `..`
whose path `dn/name` is shorter than `LFS_NAME_MAX`, the path `snprintf`
stores, which is the path of the recursive call, is exactly `dn ++ "/" ++
name`. -/
theorem recurse_path_when_it_fits {δ : Type} (E : InspectorEngine δ)
    (self : Nat → List Char → List (List Char) → Outcome × List (List Char))
    (depth : Nat) (dn : List Char) (n : Nat) (ldir : δ) (out : List (List Char))
    (hr : 0 < (E.lfs_dir_read ldir).1)
    (ht : (E.lfs_dir_read ldir).2.1.type = LFS_TYPE_DIR)
    (hd : is_dot_entry (E.lfs_dir_read ldir).2.1 = false)
    (hlen : (dn ++ '/' :: (E.lfs_dir_read ldir).2.1.name).length < E.LFS_NAME_MAX) :
    snprintf_path E.LFS_NAME_MAX dn (E.lfs_dir_read ldir).2.1.name
        = dn ++ '/' :: (E.lfs_dir_read ldir).2.1.name
      ∧ dir_loop E self depth dn (n + 1) ldir out
        = match self (depth + 1) (dn ++ '/' :: (E.lfs_dir_read ldir).2.1.name)
              (out ++ [entry_line depth (E.lfs_dir_read ldir).2.1]) with
          | (.returned, out2) => dir_loop E self depth dn n (E.lfs_dir_read ldir).2.2 out2
          | (oc, out2) => (oc, (E.lfs_dir_read ldir).2.2, out2) := by
  have hp := snprintf_path_fits E.LFS_NAME_MAX dn (E.lfs_dir_read ldir).2.1.name hlen
  refine ⟨hp, ?_⟩
  rw [dir_loop_dir E self depth dn n ldir out hr ht hd, hp]

/-- Witness of the amended C7 on the entry `fido` of the root of the tree of
the image builder: the path of the recursive call is `//fido`. -/
theorem recurse_path_when_it_fits_witness :
    (0 < ((listing_engine 255 (builder_tree 3 2)).lfs_dir_read
            (.dir "fido".toList 0 .done .done)).1
      ∧ ((listing_engine 255 (builder_tree 3 2)).lfs_dir_read
            (.dir "fido".toList 0 .done .done)).2.1.type = LFS_TYPE_DIR
      ∧ is_dot_entry ((listing_engine 255 (builder_tree 3 2)).lfs_dir_read
            (.dir "fido".toList 0 .done .done)).2.1 = false
      ∧ ("/".toList ++ '/' :: ((listing_engine 255 (builder_tree 3 2)).lfs_dir_read
            (.dir "fido".toList 0 .done .done)).2.1.name).length
          < (listing_engine 255 (builder_tree 3 2)).LFS_NAME_MAX)
      ∧ snprintf_path (listing_engine 255 (builder_tree 3 2)).LFS_NAME_MAX "/".toList
            ((listing_engine 255 (builder_tree 3 2)).lfs_dir_read
              (.dir "fido".toList 0 .done .done)).2.1.name
          = "/".toList ++ '/' :: ((listing_engine 255 (builder_tree 3 2)).lfs_dir_read
              (.dir "fido".toList 0 .done .done)).2.1.name :=
  ⟨⟨by decide, by decide, by decide, by decide⟩,
    (recurse_path_when_it_fits (listing_engine 255 (builder_tree 3 2))
      (fun _ _ o => (.returned, o)) 0 "/".toList 0 (.dir "fido".toList 0 .done .done) []
      (by decide) (by decide) (by decide) (by decide)).1⟩

/-- C9 on the code: the file `/a/b/c/d/e/f` is listed at depth 5, and its line
begins with nine blanks, not ten, since the precision `depth*2` is applied to a
string of nine blanks. -/
theorem indentation_stops_at_nine :
    recurse (listing_engine 255 deep_tree) 40 0 "/".toList []
        = (.returned,
            ["+ d 000000 a".toList, "  + d 000000 b".toList, "    + d 000000 c".toList,
             "      + d 000000 d".toList, "        + d 000000 e".toList,
             "         + f 000001 f".toList])
      ∧ entry_line 5 { type := LFS_TYPE_REG, size := 1, name := "f".toList }
          = List.replicate 9 ' ' ++ "+ f 000001 f".toList
      ∧ entry_line 5 { type := LFS_TYPE_REG, size := 1, name := "f".toList }
          ≠ List.replicate (2 * 5) ' ' ++ "+ f 000001 f".toList := by
  refine ⟨by decide, by decide, by decide⟩



end GenFidoKeys
